import Mathlib

/-!
Verification development for the Vastology backend (Vastu Vision).

Shallow embedding of:
  * the Analysis entity and its Mongoose schema hooks/methods
    (src/unnamed/part_001 = models/Analysis.js),
  * the analysis route handlers and auth middleware
    (src/backend/routes/analysisRoutes.js),
  * the file-upload batch handler (src/unnamed/part_003, POST /api/upload/files),
  * the registration handler (src/backend/routes/authRoutes.js),
  * the VastuRule model and its routes (src/unnamed/part_002, src/unnamed/part_003).

Node's event loop runs each handler atomically between `await` points; the
sequential system model below executes whole operations atomically, and a
separate interleaved model splits an operation at its `await` points to study
concurrency.  Timestamps are naturals (milliseconds); JS numbers on dimension
fields are integers; fallible persistence returns Option.
-/

set_option linter.unreachableTactic false
set_option linter.unusedTactic false

namespace Vastology

/-- Lifecycle status enum of the Analysis schema (part_001 lines 204-208). -/
inductive Status
  | pending
  | processing
  | completed
  | failed
deriving DecidableEq

/-- The eight compass orientations of the floorPlan.orientation enum
(part_001 lines 57-61). -/
inductive Compass
  | north | south | east | west | northeast | northwest | southeast | southwest
deriving DecidableEq

/-- Room-type enum of floorPlan.rooms.type (part_001 lines 67-71). -/
inductive RoomKind
  | bedroom | livingRoom | kitchen | bathroom | diningRoom | study
  | pujaRoom | balcony | other
deriving DecidableEq

/-- Dimension record: length, width and the derived area (part_001 lines
47-50 and 76-80).  JS numbers are modelled as integers; a missing field is
`none`. -/
structure Dims where
  length : Option Int := none
  width : Option Int := none
  area : Option Int := none
deriving DecidableEq

/-- A room of the floor plan (part_001 lines 62-85).  The optional position
and direction fields are not carried: no claim mentions them. -/
structure Room where
  name : String
  kind : RoomKind
  dims : Dims := {}
deriving DecidableEq

/-- The floorPlan subdocument (part_001 lines 46-86).  The unit field
(sqft/sqm default sqft) is not carried: no claim mentions it. -/
structure FloorPlan where
  orientation : Compass
  dims : Dims := {}
  rooms : List Room := []
deriving DecidableEq

/-- The Analysis entity (part_001).  Of the vastuAnalysis result payload only
overallScore (schema default 0, min 0, max 100) is carried; the directional,
elemental, room and remedy breakdowns of the mock result do not appear in any
claim.  The files array is likewise not carried here (the upload batch is
modelled separately below). -/
structure Analysis where
  owner : Nat
  title : String
  description : String := ""
  floorPlan : FloorPlan
  overallScore : Nat := 0
  status : Status := Status.pending
  processingStartedAt : Option Nat := none
  completedAt : Option Nat := none
  processingTime : Option Int := none
  isPublic : Bool := false
  tags : List String := []
  views : Nat := 0
  likes : Nat := 0
  shares : Nat := 0
deriving DecidableEq

/-- JS truthiness of an optional number: undefined and 0 are falsy. -/
def optTruthy : Option Int → Bool
  | some v => v != 0
  | none => false

/-- Body of the pre-save area hook for one dimension record (part_001 lines
261-271): `if (length && width) area = length * width`.  The JS truthiness
test skips the recomputation when either value is missing or zero. -/
def recalcDims (d : Dims) : Dims :=
  if optTruthy d.length && optTruthy d.width then
    { d with area := some (d.length.getD 0 * d.width.getD 0) }
  else d

/-- The pre-save middleware (part_001 lines 260-274): recompute the top-level
area and each room area. -/
def preSave (a : Analysis) : Analysis :=
  { a with floorPlan :=
      { a.floorPlan with
          dims := recalcDims a.floorPlan.dims
          rooms := a.floorPlan.rooms.map (fun r => { r with dims := recalcDims r.dims }) } }

/-- Mongoose schema validation on the carried fields (part_001): title is
required (non-empty, stored trimmed) with maxlength 100, description has
maxlength 500, overallScore has max 100.  Enum-valued fields are valid by
construction of their inductive types. -/
def mongooseValid (a : Analysis) : Bool :=
  a.title != "" && a.title.length ≤ 100 &&
  a.description.length ≤ 500 && a.overallScore ≤ 100

/-- Mongoose save(): validation first, then the pre-save hook, then persist.
Returns none on a ValidationError. -/
def mSave (a : Analysis) : Option Analysis :=
  if mongooseValid a then some (preSave a) else none

/-- Mongoose save with validateBeforeSave false (used by incrementViews, like
and share, part_001 lines 292-308): the pre-save hook still runs, validation
is skipped. -/
def mSaveNoValidate (a : Analysis) : Analysis :=
  preSave a

/-- Math.round(d / 1000) for an integer millisecond difference d: JS rounds
half toward positive infinity, i.e. floor(d / 1000 + 1 / 2). -/
def jsRoundMsToSec (d : Int) : Int :=
  (d + 500).fdiv 1000

/-- The updateStatus instance method (part_001 lines 276-290) minus its final
save: set the status unconditionally; stamp processingStartedAt on
processing; stamp completedAt and derive processingTime on completed.  Note
the method itself enforces no transition guard. -/
def Analysis.updateStatus (a : Analysis) (s : Status) (now : Nat) : Analysis :=
  let a := { a with status := s }
  match s with
  | Status.processing => { a with processingStartedAt := some now }
  | Status.completed =>
      let a := { a with completedAt := some now }
      match a.processingStartedAt with
      | some p => { a with processingTime := some (jsRoundMsToSec ((now : Int) - (p : Int))) }
      | none => a
  | _ => a

/-- The resolved principal of a request: either unauthenticated, or an
authenticated active user with an id and the premium entitlement exposed by
user.isPremium() (auth middleware in src/backend/routes/analysisRoutes.js
lines 419-516; the User model itself is outside src, its entitlement tier is
the boundary datum of spec section 6). -/
inductive Caller
  | anon
  | auth (uid : Nat) (premium : Bool)
deriving DecidableEq

/-- The ownership test used by the handlers:
`req.user && analysis.user._id.toString() === req.user.id`. -/
def callerIsOwner (c : Caller) (a : Analysis) : Bool :=
  match c with
  | Caller.anon => false
  | Caller.auth uid _ => uid == a.owner

/-- An HTTP response: status code, the success flag of the JSON body, the
human-readable message, and the analysis payload when one is returned. -/
structure Resp where
  code : Nat
  success : Bool
  msg : String := ""
  data : Option Analysis := none
deriving DecidableEq

/-- The Analyses collection: an association list keyed by opaque id. -/
abbrev DB := List (Nat × Analysis)

/-- Model.findById. -/
def dbGet (db : DB) (id : Nat) : Option Analysis :=
  List.lookup id db

/-- Persisting a saved document back into the collection. -/
def dbSet (db : DB) (id : Nat) (a : Analysis) : DB :=
  db.map (fun p => if p.1 == id then (id, a) else p)

/-- Model.findByIdAndDelete. -/
def dbRemove (db : DB) (id : Nat) : DB :=
  db.filter (fun p => p.1 != id)

/-- Request body of POST /api/analysis (analysisRoutes.js lines 124-145). -/
structure CreateInput where
  title : String
  description : Option String := none
  floorPlan : FloorPlan
  isPublic : Option Bool := none
  tags : Option (List String) := none
deriving DecidableEq

/-- Whitespace trim over the character list, the sanitizer applied by the
express validators and by the Mongoose trim option on title and
description. -/
def strTrim (s : String) : String :=
  String.mk (((s.data.dropWhile Char.isWhitespace).reverse.dropWhile Char.isWhitespace).reverse)

/-- The validateAnalysis middleware (src/unnamed/part_004 lines 171-213):
title trimmed to 3..100 chars, optional description trimmed to at most 500
chars, orientation a valid enum value (by construction here), optional
top-level length and width at least 1.  Rooms are not validated by the
middleware. -/
def expressValidAnalysis (inp : CreateInput) : Bool :=
  3 ≤ (strTrim inp.title).length && (strTrim inp.title).length ≤ 100 &&
  (match inp.description with
   | some d => (strTrim d).length ≤ 500
   | none => true) &&
  (match inp.floorPlan.dims.length with
   | some l => 1 ≤ l
   | none => true) &&
  (match inp.floorPlan.dims.width with
   | some w => 1 ≤ w
   | none => true)

/-- The whole-system state: the Analyses collection, the ids with a scheduled
setTimeout scoring callback not yet fired, the id allocator, and the clock in
milliseconds. -/
structure Sys where
  db : DB := []
  tasks : List Nat := []
  nextId : Nat := 0
  clock : Nat := 0

/-- POST /api/analysis (analysisRoutes.js lines 124-145): protect, then
validateAnalysis, then Analysis.create with status pending.  The express
validator sanitizes title and description with trim before Mongoose sees
them. -/
def createAnalysis (s : Sys) (c : Caller) (inp : CreateInput) : Resp × Sys :=
  match c with
  | Caller.anon =>
      ({ code := 401, success := false, msg := "Access denied. No token provided." }, s)
  | Caller.auth uid _ =>
      if !expressValidAnalysis inp then
        ({ code := 400, success := false, msg := "Validation failed" }, s)
      else
        let a : Analysis :=
          { owner := uid
            title := strTrim inp.title
            description := strTrim (inp.description.getD "")
            floorPlan := inp.floorPlan
            isPublic := inp.isPublic.getD false
            tags := inp.tags.getD []
            status := Status.pending }
        match mSave a with
        | none =>
            ({ code := 400, success := false, msg := "ValidationError" }, s)
        | some sa =>
            ({ code := 201, success := true, msg := "Analysis created successfully", data := some sa },
             { s with db := (s.nextId, sa) :: s.db, nextId := s.nextId + 1 })

/-- GET /api/analysis/:id (analysisRoutes.js lines 94-122): optionalAuth;
404 when absent; 403 when private and the caller is not the owner; a
non-owner read increments the view counter with
save(validateBeforeSave false) and the await propagates a persistence
failure (dbFail) through catchAsync to the error handler. -/
def getAnalysisById (s : Sys) (c : Caller) (id : Nat) (dbFail : Bool) : Resp × Sys :=
  match dbGet s.db id with
  | none =>
      ({ code := 404, success := false, msg := "Analysis not found" }, s)
  | some a =>
      if !a.isPublic && !callerIsOwner c a then
        ({ code := 403, success := false, msg := "Access denied" }, s)
      else if !callerIsOwner c a then
        if dbFail then
          ({ code := 500, success := false, msg := "Internal Server Error" }, s)
        else
          let va := mSaveNoValidate { a with views := a.views + 1 }
          ({ code := 200, success := true, data := some va },
           { s with db := dbSet s.db id va })
      else
        ({ code := 200, success := true, data := some a }, s)

/-- Request body of PUT /api/analysis/:id. -/
structure UpdateInput where
  title : Option String := none
  description : Option String := none
  isPublic : Option Bool := none
  tags : Option (List String) := none
deriving DecidableEq

/-- The four field writes of the update handler (analysisRoutes.js lines
170-173): `if (title)` is a JS truthiness test so an empty-string title is
skipped; description and isPublic are set whenever defined; tags whenever an
array is given (every array is truthy). -/
def applyUpdate (a : Analysis) (inp : UpdateInput) : Analysis :=
  let a := match inp.title with
    | some t => if t != "" then { a with title := strTrim t } else a
    | none => a
  let a := match inp.description with
    | some d => { a with description := strTrim d }
    | none => a
  let a := match inp.isPublic with
    | some b => { a with isPublic := b }
    | none => a
  match inp.tags with
  | some ts => { a with tags := ts }
  | none => a

/-- PUT /api/analysis/:id (analysisRoutes.js lines 150-182): protect; 404;
owner-only (403); the field writes above; then save() with validation. -/
def updateAnalysis (s : Sys) (c : Caller) (id : Nat) (inp : UpdateInput) : Resp × Sys :=
  match c with
  | Caller.anon =>
      ({ code := 401, success := false, msg := "Access denied. No token provided." }, s)
  | Caller.auth uid _ =>
      match dbGet s.db id with
      | none =>
          ({ code := 404, success := false, msg := "Analysis not found" }, s)
      | some a =>
          if uid != a.owner then
            ({ code := 403, success := false, msg := "Access denied" }, s)
          else
            match mSave (applyUpdate a inp) with
            | none =>
                ({ code := 400, success := false, msg := "ValidationError" }, s)
            | some sa =>
                ({ code := 200, success := true, msg := "Analysis updated successfully", data := some sa },
                 { s with db := dbSet s.db id sa })

/-- DELETE /api/analysis/:id (analysisRoutes.js lines 187-211): protect; 404;
owner-only (403); hard removal via findByIdAndDelete. -/
def deleteAnalysis (s : Sys) (c : Caller) (id : Nat) : Resp × Sys :=
  match c with
  | Caller.anon =>
      ({ code := 401, success := false, msg := "Access denied. No token provided." }, s)
  | Caller.auth uid _ =>
      match dbGet s.db id with
      | none =>
          ({ code := 404, success := false, msg := "Analysis not found" }, s)
      | some a =>
          if uid != a.owner then
            ({ code := 403, success := false, msg := "Access denied" }, s)
          else
            ({ code := 200, success := true, msg := "Analysis deleted successfully" },
             { s with db := dbRemove s.db id })

/-- POST /api/analysis/:id/start (analysisRoutes.js lines 216-326): protect,
then requirePremium (403 before any entity lookup), then 404, owner check
(403), status check (400 conflict when not pending), then
updateStatus processing (which saves) and setTimeout scheduling the scoring
callback; the 200 response with the processing entity is sent without
waiting for the callback. -/
def startAnalysis (s : Sys) (c : Caller) (id : Nat) : Resp × Sys :=
  match c with
  | Caller.anon =>
      ({ code := 401, success := false, msg := "Access denied. No token provided." }, s)
  | Caller.auth uid premium =>
      if !premium then
        ({ code := 403, success := false,
           msg := "Premium subscription required to access this feature." }, s)
      else
        match dbGet s.db id with
        | none =>
            ({ code := 404, success := false, msg := "Analysis not found" }, s)
        | some a =>
            if uid != a.owner then
              ({ code := 403, success := false, msg := "Access denied" }, s)
            else if a.status != Status.pending then
              ({ code := 400, success := false,
                 msg := "Analysis is already being processed or completed" }, s)
            else
              match mSave (a.updateStatus Status.processing s.clock) with
              | none =>
                  ({ code := 400, success := false, msg := "ValidationError" }, s)
              | some sa =>
                  ({ code := 200, success := true, msg := "Analysis processing started", data := some sa },
                   { s with db := dbSet s.db id sa, tasks := id :: s.tasks })

/-- The setTimeout scoring callback of the start route (analysisRoutes.js
lines 245-319), firing later for a scheduled task.  r supplies the
Math.random draw: the mock overallScore is Math.floor(random * 40) + 60.
The try block first mutates the document (the result payload, then the
completed-status stamps inside updateStatus) and only then saves, so the
catch is reachable solely through a rejection of that save - by validation
or by the store (ok = false) - and when the catch runs updateStatus failed,
the document still carries every mutation of the aborted completed save
(completedAt, processingTime, the result payload).  A rejection of the
catch's own save changes no state, like a save against a deleted
document. -/
def runScoring (s : Sys) (id : Nat) (r : Nat) (ok : Bool) : Sys :=
  if id ∈ s.tasks then
    let s1 : Sys := { s with tasks := s.tasks.erase id }
    match dbGet s1.db id with
    | none => s1
    | some a =>
        let ca : Analysis :=
          ({ a with overallScore := r % 40 + 60 }).updateStatus Status.completed s1.clock
        let catchPath : Sys :=
          match mSave (ca.updateStatus Status.failed s1.clock) with
          | some fa => { s1 with db := dbSet s1.db id fa }
          | none => s1
        match mSave ca with
        | some ca2 => if ok then { s1 with db := dbSet s1.db id ca2 } else catchPath
        | none => catchPath
  else s

/-- POST /api/analysis/:id/like (analysisRoutes.js lines 331-355): protect;
404; 403 on a private analysis for every caller; counter increment via the
like() method, saving with validateBeforeSave false. -/
def likeAnalysis (s : Sys) (c : Caller) (id : Nat) : Resp × Sys :=
  match c with
  | Caller.anon =>
      ({ code := 401, success := false, msg := "Access denied. No token provided." }, s)
  | Caller.auth _ _ =>
      match dbGet s.db id with
      | none =>
          ({ code := 404, success := false, msg := "Analysis not found" }, s)
      | some a =>
          if !a.isPublic then
            ({ code := 403, success := false, msg := "Cannot like private analysis" }, s)
          else
            let la := mSaveNoValidate { a with likes := a.likes + 1 }
            ({ code := 200, success := true, msg := "Analysis liked successfully" },
             { s with db := dbSet s.db id la })

/-- POST /api/analysis/:id/share (analysisRoutes.js lines 360-384), the same
shape as like for the shares counter. -/
def shareAnalysis (s : Sys) (c : Caller) (id : Nat) : Resp × Sys :=
  match c with
  | Caller.anon =>
      ({ code := 401, success := false, msg := "Access denied. No token provided." }, s)
  | Caller.auth _ _ =>
      match dbGet s.db id with
      | none =>
          ({ code := 404, success := false, msg := "Analysis not found" }, s)
      | some a =>
          if !a.isPublic then
            ({ code := 403, success := false, msg := "Cannot share private analysis" }, s)
          else
            let sa := mSaveNoValidate { a with shares := a.shares + 1 }
            ({ code := 200, success := true, msg := "Analysis shared successfully" },
             { s with db := dbSet s.db id sa })

/-- One exposed operation of the analysis subsystem: the six route handlers
plus the deferred scoring callback. -/
inductive Op
  | create (c : Caller) (inp : CreateInput)
  | view (c : Caller) (id : Nat) (dbFail : Bool)
  | update (c : Caller) (id : Nat) (inp : UpdateInput)
  | del (c : Caller) (id : Nat)
  | start (c : Caller) (id : Nat)
  | scoring (id : Nat) (r : Nat) (ok : Bool)
  | like (c : Caller) (id : Nat)
  | share (c : Caller) (id : Nat)

/-- Advance the wall clock by d milliseconds before the operation runs. -/
def tick (s : Sys) (d : Nat) : Sys :=
  { s with clock := s.clock + d }

/-- Sequential small-step semantics: operations are processed one at a time
(each handler runs to completion between awaits on a single Node event
loop). -/
def stepOp (s : Sys) (d : Nat) (op : Op) : Sys :=
  let s := tick s d
  match op with
  | Op.create c inp => (createAnalysis s c inp).2
  | Op.view c id dbFail => (getAnalysisById s c id dbFail).2
  | Op.update c id inp => (updateAnalysis s c id inp).2
  | Op.del c id => (deleteAnalysis s c id).2
  | Op.start c id => (startAnalysis s c id).2
  | Op.scoring id r ok => runScoring s id r ok
  | Op.like c id => (likeAnalysis s c id).2
  | Op.share c id => (shareAnalysis s c id).2

/-- The empty initial system: no analyses, no scheduled scoring. -/
def initSys : Sys := {}

/-- Reachable system states: everything obtainable from the empty system by
exposed operations. -/
inductive Reach : Sys → Prop
  | init : Reach initSys
  | next : ∀ {s : Sys} (d : Nat) (op : Op), Reach s → Reach (stepOp s d op)

/-- The legal status edges of the lifecycle: stay put, pending to processing,
processing to completed, processing to failed. -/
def allowedEdge (x y : Status) : Bool :=
  x == y ||
  (x == Status.pending && y == Status.processing) ||
  (x == Status.processing && (y == Status.completed || y == Status.failed))

/-- Area coherence for one dimension record: whenever both length and width
are present and nonzero (JS-truthy), area is their product. -/
def dimsProd (d : Dims) : Bool :=
  !(optTruthy d.length && optTruthy d.width) ||
  d.area == some (d.length.getD 0 * d.width.getD 0)

/-- Area coherence for a whole entity: top-level dimensions and every room. -/
def areaInv (a : Analysis) : Bool :=
  dimsProd a.floorPlan.dims && a.floorPlan.rooms.all (fun r => dimsProd r.dims)

/-- Per-entity invariant at a given clock: schema-valid; completedAt present
exactly on terminal entities (a failed entity arises only from the scoring
catch, after the aborted completed save already stamped completedAt); a
started entity keeps its processingStartedAt; start stamps never exceed the
clock; when both stamps are present processingTime is the rounded second
difference; areas are coherent. -/
def entityInv (clock : Nat) (a : Analysis) : Bool :=
  mongooseValid a &&
  (a.completedAt.isSome == (a.status == Status.completed || a.status == Status.failed)) &&
  (a.status == Status.pending || a.processingStartedAt.isSome) &&
  (match a.processingStartedAt with
   | some p => decide (p ≤ clock)
   | none => true) &&
  (match a.completedAt, a.processingStartedAt with
   | some ca, some p =>
       decide (p ≤ ca) &&
       a.processingTime == some (jsRoundMsToSec ((ca : Int) - (p : Int)))
   | _, _ => true) &&
  areaInv a

/-- Whole-system invariant: every stored entity satisfies entityInv and has
an id below the allocator; scheduled task ids are distinct, below the
allocator, and point at processing entities. -/
def sysInv (s : Sys) : Prop :=
  (∀ p ∈ s.db, p.1 < s.nextId ∧ entityInv s.clock p.2 = true) ∧
  s.tasks.Nodup ∧
  (∀ id ∈ s.tasks, id < s.nextId) ∧
  (∀ id ∈ s.tasks, ∀ a, dbGet s.db id = some a → a.status = Status.processing)

/-! ### Interleaved execution of concurrent requests (claim C7)

Each handler suspends at its awaits; the code between two awaits runs
atomically.  The start handler is (await findById); then synchronously the
ownership and status checks against the snapshot just read; then (await
save).  like is (await findById); (await save with the incremented
snapshot). -/

/-- The synchronous tail of the start handler, resumed with the document
snapshot its findById await returned (analysisRoutes.js lines 226-326). -/
def startResume (s : Sys) (uid : Nat) (id : Nat) (doc : Analysis) : Resp × Sys :=
  if uid != doc.owner then
    ({ code := 403, success := false, msg := "Access denied" }, s)
  else if doc.status != Status.pending then
    ({ code := 400, success := false,
       msg := "Analysis is already being processed or completed" }, s)
  else
    match mSave (doc.updateStatus Status.processing s.clock) with
    | none => ({ code := 400, success := false, msg := "ValidationError" }, s)
    | some sa =>
        ({ code := 200, success := true, msg := "Analysis processing started", data := some sa },
         { s with db := dbSet s.db id sa, tasks := id :: s.tasks })

/-- Two premium-owner start requests on the same id, interleaved so that both
findById awaits resolve before either resumes (the schedule Node produces
when the two requests arrive together). -/
def twoStartsInterleaved (s : Sys) (uid : Nat) (id : Nat) : Resp × Resp × Sys :=
  match dbGet s.db id, dbGet s.db id with
  | some d1, some d2 =>
      let r1 := startResume s uid id d1
      let r2 := startResume r1.2 uid id d2
      (r1.1, r2.1, r2.2)
  | _, _ =>
      ({ code := 404, success := false, msg := "Analysis not found" },
       { code := 404, success := false, msg := "Analysis not found" }, s)

/-- The store phase of the like handler resumed with its snapshot: the
read-modify-write this.likes += 1 followed by save (part_001 lines
299-302). -/
def likeResume (s : Sys) (id : Nat) (doc : Analysis) : Sys :=
  { s with db := dbSet s.db id (mSaveNoValidate { doc with likes := doc.likes + 1 }) }

/-- Two like requests on the same public id, interleaved so both reads happen
before either write. -/
def twoLikesInterleaved (s : Sys) (id : Nat) : Sys :=
  match dbGet s.db id, dbGet s.db id with
  | some d1, some d2 => likeResume (likeResume s id d1) id d2
  | _, _ => s

/-- n sequential like requests by an authenticated caller (the atomic,
non-interleaved schedule). -/
def likeSeq (s : Sys) (c : Caller) (id : Nat) : Nat → Sys
  | 0 => s
  | n + 1 => likeSeq ((likeAnalysis s c id).2) c id n

/-! ### The upload batch (claim C8), src/unnamed/part_003 lines 97-169 -/

/-- One incoming multipart file. -/
structure FileIn where
  originalname : String
  mimetype : String
  bytes : Nat
deriving DecidableEq

/-- The Blob Store (Cloudinary): the set of stored public ids and a fresh-id
allocator (real public ids are opaque strings never reused). -/
structure Blob where
  stored : List Nat := []
  nextBlobId : Nat := 0
deriving DecidableEq

/-- cloudinary.uploader.upload for one file: on success a fresh public id is
stored and returned; ok = false is a DependencyError (the helper rethrows
File upload failed). -/
def cloudUpload (b : Blob) (ok : Bool) : Option (Nat × Blob) :=
  if ok then
    some (b.nextBlobId, { stored := b.nextBlobId :: b.stored, nextBlobId := b.nextBlobId + 1 })
  else none

/-- cloudinary.uploader.destroy for one public id; a failed destroy (ok =
false) is caught and logged, leaving the store unchanged. -/
def cloudDestroy (b : Blob) (pid : Nat) (ok : Bool) : Blob :=
  if ok then { b with stored := b.stored.filter (fun x => x != pid) } else b

/-- The upload loop of POST /api/upload/files (part_003 lines 114-130):
upload each file in order, collecting the uploadedFiles entries; stop at the
first Blob Store failure.  uploadOk i tells whether the i-th upload request
succeeds.  Returns the uploaded (public id, file) pairs in order, the store,
and whether the whole loop completed. -/
def uploadLoop (uploadOk : Nat → Bool) : List FileIn → Nat → Blob → List (Nat × FileIn) →
    List (Nat × FileIn) × Blob × Bool
  | [], _, b, acc => (acc.reverse, b, true)
  | f :: rest, i, b, acc =>
      match cloudUpload b (uploadOk i) with
      | some (pid, b2) => uploadLoop uploadOk rest (i + 1) b2 ((pid, f) :: acc)
      | none => (acc.reverse, b, false)

/-- Best-effort cleanup loop (part_003 lines 157-164): destroy every already
uploaded public id, each in its own try/catch. -/
def cleanupBatch (destroyOk : Nat → Bool) (b : Blob) (pids : List Nat) : Blob :=
  pids.foldl (fun acc pid => cloudDestroy acc pid (destroyOk pid)) b

/-- Outcome of the upload batch handler: the response, the Blob Store, the
created Analysis file list when one was created, and the destroy requests
issued during cleanup. -/
structure UploadOutcome where
  resp : Resp
  blob : Blob
  created : Option (List Nat) := none
  destroys : List Nat := []
deriving DecidableEq

/-- POST /api/upload/files (part_003 lines 97-169): reject an empty batch;
upload each file; on any failure of the loop or of Analysis.create
(createOk = false, e.g. a Mongoose ValidationError), destroy every uploaded
file best-effort and rethrow; otherwise create the Analysis in pending
state. -/
def uploadFilesHandler (files : List FileIn) (uploadOk : Nat → Bool)
    (destroyOk : Nat → Bool) (createOk : Bool) (b : Blob) : UploadOutcome :=
  if files.isEmpty then
    { resp := { code := 400, success := false, msg := "No files uploaded" }, blob := b }
  else
    let r := uploadLoop uploadOk files 0 b []
    let pids := r.1.map Prod.fst
    if r.2.2 then
      if createOk then
        { resp := { code := 201, success := true, msg := "Files uploaded successfully" },
          blob := r.2.1, created := some pids }
      else
        { resp := { code := 500, success := false, msg := "Internal Server Error" },
          blob := cleanupBatch destroyOk r.2.1 pids, destroys := pids }
    else
      { resp := { code := 500, success := false, msg := "File upload failed" },
        blob := cleanupBatch destroyOk r.2.1 pids, destroys := pids }

/-! ### Registration (claim C9), src/backend/routes/authRoutes.js lines 25-114 -/

/-- Request body of POST /api/auth/register. -/
structure RegInput where
  firstName : String
  lastName : String
  email : String
  phone : String
  gender : String
  dateOfBirth : Option String := none
  password : String
  confirmPassword : String
deriving DecidableEq

/-- Character class of the name fields: letters and whitespace only. -/
def alphaSpace (c : Char) : Bool :=
  (('a' ≤ c && c ≤ 'z') || ('A' ≤ c && c ≤ 'Z') || c == ' ')

/-- Indian mobile pattern of the phone validator: first digit 6-9 then nine
digits. -/
def phonePattern (s : String) : Bool :=
  s.length == 10 &&
  (match s.data with
   | c :: rest => ('6' ≤ c && c ≤ '9') && rest.all Char.isDigit
   | [] => false)

/-- Password character class of the validator regex. -/
def pwChar (c : Char) : Bool :=
  c.isAlpha || c.isDigit || c == '@' || c == '$' || c == '!' || c == '%' ||
  c == '*' || c == '?' || c == '&'

/-- Password pattern of the validator regex: the four lookaheads (a lower, an
upper, a digit, a special) and a first character from the class. -/
def pwPattern (s : String) : Bool :=
  s.data.any Char.isLower && s.data.any Char.isUpper && s.data.any Char.isDigit &&
  s.data.any (fun c => c == '@' || c == '$' || c == '!' || c == '%' || c == '*' || c == '?' || c == '&') &&
  (match s.data with
   | c :: _ => pwChar c
   | [] => false)

/-- Email shape check standing in for the validator.js isEmail library
routine (external to this repository): exactly one at sign with a non-empty
local part and a non-empty domain around it. -/
def emailShape (s : String) : Bool :=
  s.data.count '@' == 1 && s.data.head? != some '@' && s.data.getLast? != some '@'

/-- The validateRegistration middleware (src/unnamed/part_004 lines 25-79):
trimmed names of 2..50 letters and spaces, an email, the phone pattern, a
gender from the enum, password of at least 8 characters matching the
pattern, and confirmPassword equal to password. -/
def validateRegistration (inp : RegInput) : Bool :=
  2 ≤ (strTrim inp.firstName).length && (strTrim inp.firstName).length ≤ 50 &&
  (strTrim inp.firstName).data.all alphaSpace &&
  2 ≤ (strTrim inp.lastName).length && (strTrim inp.lastName).length ≤ 50 &&
  (strTrim inp.lastName).data.all alphaSpace &&
  emailShape inp.email &&
  phonePattern inp.phone &&
  (inp.gender == "male" || inp.gender == "female" || inp.gender == "other" ||
   inp.gender == "prefer-not-to-say") &&
  8 ≤ inp.password.length && pwPattern inp.password &&
  inp.confirmPassword == inp.password

/-- A stored user account.  Modelled from the spec: the User model file is
not under src; spec section 6 records that Users are persisted as a
top-level collection keyed by opaque id, and the registration route sets the
email-verification token fields before its second save. -/
structure UserRec where
  firstName : String
  lastName : String
  email : String
  phone : String
  gender : String
  isEmailVerified : Bool := false
  hasVerificationToken : Bool := false
deriving DecidableEq

/-- POST /api/auth/register (authRoutes.js lines 25-114): validation gate,
duplicate check on email or phone, user creation, token stamping with
save(validateBeforeSave false), then the verification-email send inside
try/catch: both the try branch and the catch branch return the same 201
success body, so emailOk does not alter the outcome. -/
def registerRoute (users : List UserRec) (inp : RegInput) (emailOk : Bool) :
    Resp × List UserRec :=
  if !validateRegistration inp then
    ({ code := 400, success := false, msg := "Validation failed" }, users)
  else
    match users.find? (fun u => u.email == inp.email || u.phone == inp.phone) with
    | some u =>
        if u.email == inp.email then
          ({ code := 400, success := false, msg := "Email address is already registered" }, users)
        else
          ({ code := 400, success := false, msg := "Phone number is already registered" }, users)
    | none =>
        let u : UserRec :=
          { firstName := strTrim inp.firstName
            lastName := strTrim inp.lastName
            email := inp.email
            phone := inp.phone
            gender := inp.gender
            hasVerificationToken := true }
        let users2 := u :: users
        if emailOk then
          ({ code := 201, success := true,
             msg := "Registration successful! Please check your email to verify your account." }, users2)
        else
          ({ code := 201, success := true,
             msg := "Registration successful! Please check your email to verify your account." }, users2)

/-! ### VastuRule catalog (claim C10), src/unnamed/part_002 and the vastu
routes in src/unnamed/part_003 lines 337-791 -/

/-- One remedy subdocument of a rule (part_002 lines 74-89). -/
structure Remedy where
  rkind : String := ""
  description : String := ""
  cost : String := ""
  difficulty : String := ""
deriving DecidableEq

/-- A VastuRule record (part_002).  Category, direction, roomType, element,
importance and impact are schema enums over strings; the claims compare them
only for equality so they are carried as strings. -/
structure VastuRule where
  name : String
  category : String
  description : String
  direction : Option String := none
  roomType : Option String := none
  element : Option String := none
  importance : String := "medium"
  impact : String
  priority : Nat := 5
  remedies : List Remedy := []
  tags : List String := []
  isActive : Bool := true
  version : Nat := 1
deriving DecidableEq

/-- The rules collection keyed by opaque id. -/
abbrev RuleDB := List (Nat × VastuRule)

/-- findById on the rules collection. -/
def ruleGet (db : RuleDB) (id : Nat) : Option VastuRule :=
  List.lookup id db

/-- Persisting a saved rule. -/
def ruleSet (db : RuleDB) (id : Nat) (r : VastuRule) : RuleDB :=
  db.map (fun p => if p.1 == id then (id, r) else p)

/-- The sort comparator of sort priority -1, importance -1: priority
descending, then the importance string descending (MongoDB compares the
stored strings). -/
def ruleGE (x y : VastuRule) : Bool :=
  y.priority < x.priority || (x.priority == y.priority && decide (y.importance ≤ x.importance))

/-- Ordered insertion for the sort below. -/
def insertGE (x : VastuRule) : List VastuRule → List VastuRule
  | [] => [x]
  | y :: ys => if ruleGE x y then x :: y :: ys else y :: insertGE x ys

/-- Stable sort of a rule list by the comparator above. -/
def sortRules (l : List VastuRule) : List VastuRule :=
  l.foldr insertGE []

/-- Whether pat starts the list hay. -/
def startsChars : List Char → List Char → Bool
  | [], _ => true
  | _ :: _, [] => false
  | p :: ps, h :: hs => p == h && startsChars ps hs

/-- Whether pat occurs inside hay. -/
def hasSubChars (pat : List Char) : List Char → Bool
  | [] => pat.isEmpty
  | h :: hs => startsChars pat (h :: hs) || hasSubChars pat hs

/-- Case-insensitive substring test standing in for the case-insensitive
regex matches of searchRules. -/
def strContainsCI (hay pat : String) : Bool :=
  hasSubChars (pat.data.map Char.toLower) (hay.data.map Char.toLower)

/-- The dollar-in filter [value, any] on an optional enum field. -/
def inOrAny (field : Option String) (wanted : String) : Bool :=
  field == some wanted || field == some "any"

/-- Query filters of GET /api/vastu/rules (part_003 lines 360-378). -/
structure RuleFilters where
  category : Option String := none
  direction : Option String := none
  roomType : Option String := none
  element : Option String := none
  importance : Option String := none
  impact : Option String := none
deriving DecidableEq

/-- Whether a rule matches the list-route query: isActive true plus each
provided filter. -/
def ruleMatches (f : RuleFilters) (r : VastuRule) : Bool :=
  r.isActive &&
  (match f.category with | some c => r.category == c | none => true) &&
  (match f.direction with | some d => inOrAny r.direction d | none => true) &&
  (match f.roomType with | some t => inOrAny r.roomType t | none => true) &&
  (match f.element with | some e => inOrAny r.element e | none => true) &&
  (match f.importance with | some i => r.importance == i | none => true) &&
  (match f.impact with | some i => r.impact == i | none => true)

/-- GET /api/vastu/rules (part_003 lines 353-400): filter on isActive plus
the query filters, sort, then paginate with skip and limit. -/
def listRules (db : RuleDB) (f : RuleFilters) (skip limit : Nat) : List VastuRule :=
  ((sortRules ((db.map Prod.snd).filter (ruleMatches f))).drop skip).take limit

/-- GET /api/vastu/rules/:id (part_003 lines 405-419): 404 when the rule is
absent or inactive. -/
def getRuleById (db : RuleDB) (id : Nat) : Resp :=
  match ruleGet db id with
  | none => { code := 404, success := false, msg := "Vastu rule not found" }
  | some r =>
      if !r.isActive then { code := 404, success := false, msg := "Vastu rule not found" }
      else { code := 200, success := true }

/-- The getApplicableRemedies instance method (part_002 lines 145-151). -/
def getApplicableRemedies (r : VastuRule) (budget difficulty : String) : List Remedy :=
  r.remedies.filter (fun rem =>
    (budget == "any" || rem.cost == budget || rem.cost == "low") &&
    (difficulty == "any" || rem.difficulty == difficulty || rem.difficulty == "easy"))

/-- GET /api/vastu/rules/:id/remedies (part_003 lines 484-502): the same
absent-or-inactive 404 gate, then the remedy filter. -/
def getRuleRemedies (db : RuleDB) (id : Nat) (budget difficulty : String) :
    Resp × List Remedy :=
  match ruleGet db id with
  | none => ({ code := 404, success := false, msg := "Vastu rule not found" }, [])
  | some r =>
      if !r.isActive then
        ({ code := 404, success := false, msg := "Vastu rule not found" }, [])
      else
        ({ code := 200, success := true }, getApplicableRemedies r budget difficulty)

/-- The getByCategory static (part_002 lines 154-163). -/
def getByCategory (db : RuleDB) (category : String) (f : RuleFilters) : List VastuRule :=
  sortRules ((db.map Prod.snd).filter (fun r =>
    r.category == category && r.isActive &&
    (match f.direction with | some d => inOrAny r.direction d | none => true) &&
    (match f.roomType with | some t => inOrAny r.roomType t | none => true) &&
    (match f.element with | some e => inOrAny r.element e | none => true) &&
    (match f.importance with | some i => r.importance == i | none => true)))

/-- The getCriticalRules static (part_002 lines 166-171). -/
def getCriticalRules (db : RuleDB) : List VastuRule :=
  sortRules ((db.map Prod.snd).filter (fun r =>
    r.isActive && r.importance == "critical"))

/-- The searchRules static (part_002 lines 174-191): isActive, a
case-insensitive match of the term against name, description or a tag, plus
the optional filters. -/
def searchRules (db : RuleDB) (q : String) (f : RuleFilters) : List VastuRule :=
  sortRules ((db.map Prod.snd).filter (fun r =>
    r.isActive &&
    (strContainsCI r.name q || strContainsCI r.description q ||
     r.tags.any (fun t => strContainsCI t q)) &&
    (match f.category with | some c => r.category == c | none => true) &&
    (match f.direction with | some d => inOrAny r.direction d | none => true) &&
    (match f.roomType with | some t => inOrAny r.roomType t | none => true) &&
    (match f.element with | some e => inOrAny r.element e | none => true) &&
    (match f.importance with | some i => r.importance == i | none => true)))

/-- DELETE /api/vastu/rules/:id (part_003 lines 772-789), behind protect and
authorize admin: a soft deactivation, rule.isActive = false then save.  The
pre-save hook of part_002 lines 194-199 bumps version when the document was
modified and is not new, which the set to false does exactly when the rule
was active. -/
def deleteRule (db : RuleDB) (id : Nat) : Resp × RuleDB :=
  match ruleGet db id with
  | none =>
      ({ code := 404, success := false, msg := "Vastu rule not found" }, db)
  | some r =>
      let r2 : VastuRule :=
        { r with isActive := false, version := if r.isActive then r.version + 1 else r.version }
      ({ code := 200, success := true, msg := "Vastu rule deactivated successfully" },
       ruleSet db id r2)

/-! ### Concrete sample data for witnesses and counterexamples -/

/-- A minimal valid creation request (spec scenario A). -/
def inpHome : CreateInput :=
  { title := "My Home"
    floorPlan := { orientation := Compass.north } }

/-- A creation request whose kitchen room carries length zero, width five and
a caller-chosen area of 999: the express validator does not inspect rooms
and the area hook skips a zero length. -/
def inpZeroLen : CreateInput :=
  { title := "Zero length room"
    floorPlan :=
      { orientation := Compass.north
        dims := { area := some 777 }
        rooms := [{ name := "Kitchen"
                    kind := RoomKind.kitchen
                    dims := { length := some 0, width := some 5, area := some 999 } }] } }

/-- The system after one valid creation by premium user 7: one pending
analysis at id 0. -/
def sysPending : Sys :=
  stepOp initSys 0 (Op.create (Caller.auth 7 true) inpHome)

/-- The system after creating the zero-length-room analysis. -/
def sysZeroLen : Sys :=
  stepOp initSys 0 (Op.create (Caller.auth 7 true) inpZeroLen)

/-- A public pending analysis owned by user 7, stored at id 0, for the
concurrency and visibility scenarios. -/
def pubAnalysis : Analysis :=
  { owner := 7
    title := "Shared flat"
    floorPlan := { orientation := Compass.east }
    isPublic := true }

/-- A one-entity store holding pubAnalysis at id 0. -/
def sysPub : Sys :=
  { db := [(0, pubAnalysis)], nextId := 1 }

/-- The processingDuration virtual (part_001 lines 243-248): the rounded
second difference when both stamps are present, otherwise null. -/
def processingDuration (a : Analysis) : Option Int :=
  match a.processingStartedAt, a.completedAt with
  | some p, some ca => some (jsRoundMsToSec ((ca : Int) - (p : Int)))
  | _, _ => none

/-- Agreement of two documents on the four lifecycle fields. -/
def lifecycleEq (x y : Analysis) : Prop :=
  x.status = y.status ∧
  x.processingStartedAt = y.processingStartedAt ∧
  x.completedAt = y.completedAt ∧
  x.processingTime = y.processingTime

/-- The entity create stores for inpHome. -/
def homeA : Analysis :=
  { owner := 7
    title := "My Home"
    floorPlan := { orientation := Compass.north } }

/-- homeA after a successful start at clock 0. -/
def procHome : Analysis :=
  { homeA with status := Status.processing, processingStartedAt := some 0 }

/-- The system after starting the pending analysis of sysPending. -/
def sysProc : Sys :=
  stepOp sysPending 0 (Op.start (Caller.auth 7 true) 0)

/-- The system 5000 ms later, after the scoring callback fired successfully
with random draw 13. -/
def sysDone : Sys :=
  stepOp sysProc 5000 (Op.scoring 0 13 true)

/-- homeA completed at clock 5000 with the mock score of draw 13. -/
def doneHome : Analysis :=
  { homeA with
      status := Status.completed
      processingStartedAt := some 0
      completedAt := some 5000
      processingTime := some 5
      overallScore := 73 }

/-- A stored public analysis violating schema validation (empty title): views
are still counted on it because incrementViews saves with
validateBeforeSave false. -/
def invalidPub : Analysis :=
  { owner := 7
    title := ""
    floorPlan := { orientation := Compass.west }
    isPublic := true }

/-- A one-entity store holding the invalid public analysis. -/
def sysInvalid : Sys :=
  { db := [(0, invalidPub)], nextId := 1 }

/-- A registration request passing every validator. -/
def regAsha : RegInput :=
  { firstName := "Asha"
    lastName := "Rao"
    email := "asha@example.com"
    phone := "9876543210"
    gender := "female"
    password := "Aa1@aaaa"
    confirmPassword := "Aa1@aaaa" }

/-- The system where the completed save of the scoring callback was
rejected by the store at clock 5000: the catch persisted the failed entity
still carrying the aborted save's stamps. -/
def sysFailed : Sys :=
  stepOp sysProc 5000 (Op.scoring 0 13 false)

/-- homeA after that run: failed, yet with the completedAt, processingTime
and score of the aborted complete. -/
def failedHome : Analysis :=
  { homeA with
      status := Status.failed
      processingStartedAt := some 0
      completedAt := some 5000
      processingTime := some 5
      overallScore := 73 }

/-- An active sample rule. -/
def ruleNE : VastuRule :=
  { name := "Puja room in the northeast"
    category := "puja-room"
    description := "Place the puja room in the northeast corner"
    direction := some "northeast"
    importance := "critical"
    impact := "positive"
    remedies := [{ rkind := "color", description := "Use light colors", cost := "low", difficulty := "easy" }] }

/-- The same rule deactivated. -/
def ruleOff : VastuRule :=
  { ruleNE with isActive := false }

/-! ## Association-list lemmas -/

theorem lookup_cons_eq {α : Type} (j k : Nat) (v : α) (rest : List (Nat × α)) :
    List.lookup j ((k, v) :: rest) = if j = k then some v else List.lookup j rest := by
  by_cases h : j = k
  · subst h
    simp [List.lookup]
  · simp [List.lookup, beq_false_of_ne h, h]

theorem lookup_mem {α : Type} {l : List (Nat × α)} {id : Nat} {x : α}
    (h : List.lookup id l = some x) : (id, x) ∈ l := by
  induction l with
  | nil => simp [List.lookup] at h
  | cons p rest ih =>
      obtain ⟨k, v⟩ := p
      rw [lookup_cons_eq] at h
      by_cases hk : id = k
      · rw [if_pos hk] at h
        subst hk
        simp at h
        simp [h]
      · rw [if_neg hk] at h
        simp [ih h]

theorem lookup_none_of_big {α : Type} {l : List (Nat × α)} {n : Nat}
    (h : ∀ p ∈ l, p.1 < n) : List.lookup n l = none := by
  induction l with
  | nil => simp [List.lookup]
  | cons p rest ih =>
      obtain ⟨k, v⟩ := p
      have hk : k < n := h (k, v) (by simp)
      rw [lookup_cons_eq, if_neg (by omega)]
      exact ih (fun q hq => h q (by simp [hq]))

theorem lookup_upd_self {α : Type} {l : List (Nat × α)} {id : Nat} {y : α} (x : α)
    (h : List.lookup id l = some y) :
    List.lookup id (l.map (fun p => if p.1 == id then (id, x) else p)) = some x := by
  induction l with
  | nil => simp [List.lookup] at h
  | cons p rest ih =>
      obtain ⟨k, v⟩ := p
      rw [lookup_cons_eq] at h
      by_cases hk : id = k
      · subst hk
        simp [lookup_cons_eq]
      · rw [if_neg hk] at h
        have hkid : (k == id) = false := by simp [Ne.symm hk]
        simp only [List.map_cons, hkid, Bool.false_eq_true, if_false]
        rw [lookup_cons_eq, if_neg hk]
        exact ih h

theorem lookup_upd_ne {α : Type} {l : List (Nat × α)} {id j : Nat} (x : α)
    (h : j ≠ id) :
    List.lookup j (l.map (fun p => if p.1 == id then (id, x) else p)) = List.lookup j l := by
  induction l with
  | nil => simp
  | cons p rest ih =>
      obtain ⟨k, v⟩ := p
      by_cases hk : k = id
      · subst hk
        simp only [List.map_cons, beq_self_eq_true, if_true]
        rw [lookup_cons_eq, lookup_cons_eq, if_neg h, if_neg h]
        exact ih
      · have hkid : (k == id) = false := by simp [hk]
        simp only [List.map_cons, hkid, Bool.false_eq_true, if_false]
        rw [lookup_cons_eq, lookup_cons_eq]
        by_cases hj : j = k
        · rw [if_pos hj, if_pos hj]
        · rw [if_neg hj, if_neg hj]
          exact ih

theorem mem_upd {α : Type} {l : List (Nat × α)} {id : Nat} {x : α} {p : Nat × α}
    (h : p ∈ l.map (fun q => if q.1 == id then (id, x) else q)) :
    p ∈ l ∨ (p = (id, x) ∧ ∃ y, (id, y) ∈ l) := by
  induction l with
  | nil => simp at h
  | cons q rest ih =>
      obtain ⟨k, v⟩ := q
      by_cases hk : k = id
      · subst hk
        simp only [List.map_cons, beq_self_eq_true, if_true, List.mem_cons] at h
        rcases h with h | h
        · exact Or.inr ⟨h, v, by simp⟩
        · rcases ih h with h2 | ⟨h2, y, h3⟩
          · exact Or.inl (by simp [h2])
          · exact Or.inr ⟨h2, y, by simp [h3]⟩
      · have hkid : (k == id) = false := by simp [hk]
        simp only [List.map_cons, hkid, Bool.false_eq_true, if_false, List.mem_cons] at h
        rcases h with h | h
        · exact Or.inl (by simp [h])
        · rcases ih h with h2 | ⟨h2, y, h3⟩
          · exact Or.inl (by simp [h2])
          · exact Or.inr ⟨h2, y, by simp [h3]⟩

theorem lookup_remove {α : Type} (l : List (Nat × α)) (id j : Nat) :
    List.lookup j (l.filter (fun p => p.1 != id)) =
      if j = id then none else List.lookup j l := by
  induction l with
  | nil => simp [List.lookup]
  | cons p rest ih =>
      obtain ⟨k, v⟩ := p
      by_cases hk : k = id
      · subst hk
        simp only [List.filter_cons, bne_self_eq_false, Bool.false_eq_true, if_false]
        rw [ih]
        by_cases hj : j = k
        · simp [hj]
        · rw [if_neg hj, if_neg hj, lookup_cons_eq, if_neg hj]
      · have hkid : (k != id) = true := by simp [hk]
        simp only [List.filter_cons, hkid, if_true]
        rw [lookup_cons_eq, lookup_cons_eq]
        by_cases hj : j = k
        · subst hj
          rw [if_pos rfl, if_pos rfl, if_neg hk]
        · rw [if_neg hj, if_neg hj, ih]

theorem mem_remove {α : Type} {l : List (Nat × α)} {id : Nat} {p : Nat × α}
    (h : p ∈ l.filter (fun q => q.1 != id)) : p ∈ l :=
  List.mem_of_mem_filter h
/-! ## Field-preservation facts of the save pipeline -/

theorem preSave_fields (a : Analysis) :
    (preSave a).owner = a.owner ∧ (preSave a).title = a.title ∧
    (preSave a).description = a.description ∧ (preSave a).overallScore = a.overallScore ∧
    (preSave a).status = a.status ∧
    (preSave a).processingStartedAt = a.processingStartedAt ∧
    (preSave a).completedAt = a.completedAt ∧
    (preSave a).processingTime = a.processingTime ∧
    (preSave a).isPublic = a.isPublic ∧ (preSave a).views = a.views ∧
    (preSave a).likes = a.likes ∧ (preSave a).shares = a.shares :=
  ⟨rfl, rfl, rfl, rfl, rfl, rfl, rfl, rfl, rfl, rfl, rfl, rfl⟩

theorem mongooseValid_preSave (a : Analysis) :
    mongooseValid (preSave a) = mongooseValid a := rfl

theorem dimsProd_recalc (d : Dims) : dimsProd (recalcDims d) = true := by
  unfold recalcDims dimsProd
  by_cases h : (optTruthy d.length && optTruthy d.width) = true
  · simp [h]
  · simp only [h, if_false, Bool.false_eq_true]
    simp only [Bool.not_eq_true'] at h
    simp [h]

theorem areaInv_preSave (a : Analysis) : areaInv (preSave a) = true := by
  unfold areaInv preSave
  simp only [Bool.and_eq_true, List.all_eq_true]
  constructor
  · exact dimsProd_recalc _
  · intro r hr
    simp only [List.mem_map] at hr
    obtain ⟨r0, _, hr0⟩ := hr
    subst hr0
    exact dimsProd_recalc _

theorem mSave_eq_some {a sa : Analysis} (h : mSave a = some sa) :
    mongooseValid a = true ∧ sa = preSave a := by
  unfold mSave at h
  by_cases hv : mongooseValid a = true
  · simp [hv] at h
    exact ⟨hv, h.symm⟩
  · simp [hv] at h

theorem mSave_of_valid {a : Analysis} (h : mongooseValid a = true) :
    mSave a = some (preSave a) := by
  unfold mSave
  simp [h]

theorem updateStatus_fields (a : Analysis) (st : Status) (now : Nat) :
    (a.updateStatus st now).owner = a.owner ∧
    (a.updateStatus st now).title = a.title ∧
    (a.updateStatus st now).description = a.description ∧
    (a.updateStatus st now).overallScore = a.overallScore ∧
    (a.updateStatus st now).isPublic = a.isPublic ∧
    (a.updateStatus st now).views = a.views ∧
    (a.updateStatus st now).likes = a.likes ∧
    (a.updateStatus st now).shares = a.shares ∧
    (a.updateStatus st now).floorPlan = a.floorPlan ∧
    (a.updateStatus st now).status = st := by
  cases st <;>
    first
      | exact ⟨rfl, rfl, rfl, rfl, rfl, rfl, rfl, rfl, rfl, rfl⟩
      | (unfold Analysis.updateStatus
         cases hp : a.processingStartedAt <;>
           exact ⟨rfl, rfl, rfl, rfl, rfl, rfl, rfl, rfl, rfl, rfl⟩)

theorem mongooseValid_updateStatus (a : Analysis) (st : Status) (now : Nat) :
    mongooseValid (a.updateStatus st now) = mongooseValid a := by
  obtain ⟨_, h1, h2, h3, _⟩ := updateStatus_fields a st now
  unfold mongooseValid
  rw [h1, h2, h3]

theorem updateStatus_processing (a : Analysis) (now : Nat) :
    a.updateStatus Status.processing now =
      { a with status := Status.processing, processingStartedAt := some now } := rfl

theorem updateStatus_failed (a : Analysis) (now : Nat) :
    a.updateStatus Status.failed now = { a with status := Status.failed } := rfl

theorem updateStatus_completed (a : Analysis) (now : Nat) {p : Nat}
    (h : a.processingStartedAt = some p) :
    a.updateStatus Status.completed now =
      { a with status := Status.completed, completedAt := some now,
               processingTime := some (jsRoundMsToSec ((now : Int) - (p : Int))) } := by
  unfold Analysis.updateStatus
  simp [h]

/-! ## The per-entity invariant as a proposition -/

theorem entityInv_iff (clock : Nat) (a : Analysis) : entityInv clock a = true ↔
    mongooseValid a = true ∧
    (a.completedAt.isSome ↔ (a.status = Status.completed ∨ a.status = Status.failed)) ∧
    (a.status = Status.pending ∨ a.processingStartedAt.isSome) ∧
    (∀ p, a.processingStartedAt = some p → p ≤ clock) ∧
    (∀ ca p, a.completedAt = some ca → a.processingStartedAt = some p →
       p ≤ ca ∧ a.processingTime = some (jsRoundMsToSec ((ca : Int) - (p : Int)))) ∧
    areaInv a = true := by
  unfold entityInv
  cases hc : a.completedAt <;> cases hp : a.processingStartedAt <;>
    simp [hc, hp, Bool.and_eq_true, Bool.or_eq_true, decide_eq_true_iff, and_assoc]

theorem entityInv_mono {c1 c2 : Nat} (h : c1 ≤ c2) {a : Analysis}
    (hi : entityInv c1 a = true) : entityInv c2 a = true := by
  rw [entityInv_iff] at hi ⊢
  obtain ⟨h1, h2, h3, h4, h5, h6⟩ := hi
  exact ⟨h1, h2, h3, fun p hp => le_trans (h4 p hp) h, h5, h6⟩

/-! ## Shape of each handler result -/

theorem applyUpdate_fields (a : Analysis) (inp : UpdateInput) :
    (applyUpdate a inp).owner = a.owner ∧
    (applyUpdate a inp).status = a.status ∧
    (applyUpdate a inp).processingStartedAt = a.processingStartedAt ∧
    (applyUpdate a inp).completedAt = a.completedAt ∧
    (applyUpdate a inp).processingTime = a.processingTime ∧
    (applyUpdate a inp).views = a.views := by
  obtain ⟨ot, od, op, og⟩ := inp
  cases ot <;> cases od <;> cases op <;> cases og <;>
    dsimp only [applyUpdate] <;>
    first
      | exact ⟨rfl, rfl, rfl, rfl, rfl, rfl⟩
      | (split <;> exact ⟨rfl, rfl, rfl, rfl, rfl, rfl⟩)

theorem view_sys (s : Sys) (c : Caller) (id : Nat) (dbFail : Bool) :
    (getAnalysisById s c id dbFail).2 = s ∨
    ∃ a, dbGet s.db id = some a ∧
      (getAnalysisById s c id dbFail).2 =
        { s with db := dbSet s.db id (preSave { a with views := a.views + 1 }) } := by
  unfold getAnalysisById
  cases hg : dbGet s.db id with
  | none => first | exact Or.inl rfl | exact Or.inl trivial
  | some a =>
      by_cases h1 : (!a.isPublic && !callerIsOwner c a) = true
      · simp only [h1, if_true]
        first | exact Or.inl rfl | exact Or.inl trivial
      · simp only [h1, if_false, Bool.false_eq_true]
        by_cases h2 : (!callerIsOwner c a) = true
        · simp only [h2, if_true]
          cases dbFail with
          | true => first | exact Or.inl rfl | exact Or.inl trivial
          | false => exact Or.inr ⟨a, rfl, rfl⟩
        · simp only [h2, if_false, Bool.false_eq_true]
          first | exact Or.inl rfl | exact Or.inl trivial

theorem like_sys (s : Sys) (c : Caller) (id : Nat) :
    (likeAnalysis s c id).2 = s ∨
    ∃ a, dbGet s.db id = some a ∧
      (likeAnalysis s c id).2 =
        { s with db := dbSet s.db id (preSave { a with likes := a.likes + 1 }) } := by
  unfold likeAnalysis
  cases c with
  | anon => first | exact Or.inl rfl | exact Or.inl trivial
  | auth uid prem =>
      cases hg : dbGet s.db id with
      | none => first | exact Or.inl rfl | exact Or.inl trivial
      | some a =>
          by_cases h1 : (!a.isPublic) = true
          · simp only [h1, if_true]
            first | exact Or.inl rfl | exact Or.inl trivial
          · simp only [h1, if_false, Bool.false_eq_true]
            exact Or.inr ⟨a, rfl, rfl⟩

theorem share_sys (s : Sys) (c : Caller) (id : Nat) :
    (shareAnalysis s c id).2 = s ∨
    ∃ a, dbGet s.db id = some a ∧
      (shareAnalysis s c id).2 =
        { s with db := dbSet s.db id (preSave { a with shares := a.shares + 1 }) } := by
  unfold shareAnalysis
  cases c with
  | anon => first | exact Or.inl rfl | exact Or.inl trivial
  | auth uid prem =>
      cases hg : dbGet s.db id with
      | none => first | exact Or.inl rfl | exact Or.inl trivial
      | some a =>
          by_cases h1 : (!a.isPublic) = true
          · simp only [h1, if_true]
            first | exact Or.inl rfl | exact Or.inl trivial
          · simp only [h1, if_false, Bool.false_eq_true]
            exact Or.inr ⟨a, rfl, rfl⟩

theorem update_sys (s : Sys) (c : Caller) (id : Nat) (inp : UpdateInput) :
    (updateAnalysis s c id inp).2 = s ∨
    ∃ a, dbGet s.db id = some a ∧ mongooseValid (applyUpdate a inp) = true ∧
      (updateAnalysis s c id inp).2 =
        { s with db := dbSet s.db id (preSave (applyUpdate a inp)) } := by
  unfold updateAnalysis
  cases c with
  | anon => first | exact Or.inl rfl | exact Or.inl trivial
  | auth uid prem =>
      cases hg : dbGet s.db id with
      | none => first | exact Or.inl rfl | exact Or.inl trivial
      | some a =>
          by_cases ho : (uid != a.owner) = true
          · simp only [ho, if_true]
            first | exact Or.inl rfl | exact Or.inl trivial
          · simp only [ho, if_false, Bool.false_eq_true]
            cases hs : mSave (applyUpdate a inp) with
            | none => first | exact Or.inl rfl | exact Or.inl trivial
            | some sa =>
                obtain ⟨hv, hsa⟩ := mSave_eq_some hs
                subst hsa
                exact Or.inr ⟨a, rfl, hv, rfl⟩

theorem create_sys (s : Sys) (c : Caller) (inp : CreateInput) :
    (createAnalysis s c inp).2 = s ∨
    ∃ sa, sa.status = Status.pending ∧ sa.processingStartedAt = none ∧
      sa.completedAt = none ∧ sa.processingTime = none ∧
      mongooseValid sa = true ∧ areaInv sa = true ∧
      (createAnalysis s c inp).2 =
        { s with db := (s.nextId, sa) :: s.db, nextId := s.nextId + 1 } := by
  unfold createAnalysis
  cases c with
  | anon => first | exact Or.inl rfl | exact Or.inl trivial
  | auth uid prem =>
      by_cases hv : (!expressValidAnalysis inp) = true
      · simp only [hv, if_true]
        first | exact Or.inl rfl | exact Or.inl trivial
      · simp only [hv, if_false, Bool.false_eq_true]
        cases hs : mSave
            { owner := uid
              title := strTrim inp.title
              description := strTrim (inp.description.getD "")
              floorPlan := inp.floorPlan
              isPublic := inp.isPublic.getD false
              tags := inp.tags.getD []
              status := Status.pending } with
        | none => first | exact Or.inl rfl | exact Or.inl trivial
        | some sa =>
            obtain ⟨hva, hsa⟩ := mSave_eq_some hs
            subst hsa
            refine Or.inr ⟨_, rfl, rfl, rfl, rfl, ?_, areaInv_preSave _, rfl⟩
            rw [mongooseValid_preSave]
            exact hva

theorem del_sys (s : Sys) (c : Caller) (id : Nat) :
    (deleteAnalysis s c id).2 = s ∨
    (deleteAnalysis s c id).2 = { s with db := dbRemove s.db id } := by
  unfold deleteAnalysis
  cases c with
  | anon => first | exact Or.inl rfl | exact Or.inl trivial
  | auth uid prem =>
      cases hg : dbGet s.db id with
      | none => first | exact Or.inl rfl | exact Or.inl trivial
      | some a =>
          by_cases ho : (uid != a.owner) = true
          · simp only [ho, if_true]
            first | exact Or.inl rfl | exact Or.inl trivial
          · simp only [ho, if_false, Bool.false_eq_true]
            first | exact Or.inr rfl | exact Or.inr trivial

theorem start_sys (s : Sys) (c : Caller) (id : Nat) :
    (startAnalysis s c id).2 = s ∨
    ∃ a, dbGet s.db id = some a ∧ a.status = Status.pending ∧
      mongooseValid a = true ∧
      (startAnalysis s c id).2 =
        { s with db := dbSet s.db id (preSave (a.updateStatus Status.processing s.clock)),
                 tasks := id :: s.tasks } := by
  unfold startAnalysis
  cases c with
  | anon => first | exact Or.inl rfl | exact Or.inl trivial
  | auth uid prem =>
      by_cases hp : (!prem) = true
      · simp only [hp, if_true]
        first | exact Or.inl rfl | exact Or.inl trivial
      · simp only [hp, if_false, Bool.false_eq_true]
        cases hg : dbGet s.db id with
        | none => first | exact Or.inl rfl | exact Or.inl trivial
        | some a =>
            by_cases ho : (uid != a.owner) = true
            · simp only [ho, if_true]
              first | exact Or.inl rfl | exact Or.inl trivial
            · simp only [ho, if_false, Bool.false_eq_true]
              by_cases hst : (a.status != Status.pending) = true
              · simp only [hst, if_true]
                first | exact Or.inl rfl | exact Or.inl trivial
              · simp only [hst, if_false, Bool.false_eq_true]
                have hpend : a.status = Status.pending := by
                  simpa using hst
                cases hs : mSave (a.updateStatus Status.processing s.clock) with
                | none => first | exact Or.inl rfl | exact Or.inl trivial
                | some sa =>
                    obtain ⟨hva, hsa⟩ := mSave_eq_some hs
                    subst hsa
                    rw [mongooseValid_updateStatus] at hva
                    exact Or.inr ⟨a, rfl, hpend, hva, rfl⟩

theorem scoring_sys (s : Sys) (id : Nat) (r : Nat) (ok : Bool) :
    runScoring s id r ok = s ∨
    (id ∈ s.tasks ∧ runScoring s id r ok = { s with tasks := s.tasks.erase id }) ∨
    (id ∈ s.tasks ∧ ∃ a sa, dbGet s.db id = some a ∧
      (sa = preSave (({ a with overallScore := r % 40 + 60 }).updateStatus
          Status.completed s.clock) ∨
       sa = preSave ((({ a with overallScore := r % 40 + 60 }).updateStatus
          Status.completed s.clock).updateStatus Status.failed s.clock)) ∧
      runScoring s id r ok = { s with db := dbSet s.db id sa, tasks := s.tasks.erase id }) := by
  unfold runScoring
  by_cases hm : id ∈ s.tasks
  · rw [if_pos hm]
    dsimp only
    cases hg : dbGet s.db id with
    | none => exact Or.inr (Or.inl ⟨hm, rfl⟩)
    | some a =>
        dsimp only
        cases hs : mSave (({ a with overallScore := r % 40 + 60 }).updateStatus
            Status.completed s.clock) with
        | some ca2 =>
            obtain ⟨_, hca2⟩ := mSave_eq_some hs
            subst hca2
            cases ok with
            | true => exact Or.inr (Or.inr ⟨hm, a, _, rfl, Or.inl rfl, rfl⟩)
            | false =>
                cases hf : mSave ((({ a with overallScore := r % 40 + 60 }).updateStatus
                    Status.completed s.clock).updateStatus Status.failed s.clock) with
                | some fa =>
                    obtain ⟨_, hfa⟩ := mSave_eq_some hf
                    subst hfa
                    exact Or.inr (Or.inr ⟨hm, a, _, rfl, Or.inr rfl, rfl⟩)
                | none => exact Or.inr (Or.inl ⟨hm, rfl⟩)
        | none =>
            cases hf : mSave ((({ a with overallScore := r % 40 + 60 }).updateStatus
                Status.completed s.clock).updateStatus Status.failed s.clock) with
            | some fa =>
                obtain ⟨_, hfa⟩ := mSave_eq_some hf
                subst hfa
                exact Or.inr (Or.inr ⟨hm, a, _, rfl, Or.inr rfl, rfl⟩)
            | none => exact Or.inr (Or.inl ⟨hm, rfl⟩)
  · simp only [hm, if_false]
    first | exact Or.inl rfl | exact Or.inl trivial

/-! ## The system invariant holds in every reachable state -/

theorem entityInv_congr {clock : Nat} {a b : Analysis}
    (hv : mongooseValid b = true) (har : areaInv b = true)
    (hst : b.status = a.status) (hpsa : b.processingStartedAt = a.processingStartedAt)
    (hca : b.completedAt = a.completedAt) (hpt : b.processingTime = a.processingTime)
    (ha : entityInv clock a = true) : entityInv clock b = true := by
  rw [entityInv_iff] at ha ⊢
  obtain ⟨_, h2, h3, h4, h5, _⟩ := ha
  refine ⟨hv, ?_, ?_, ?_, ?_, har⟩
  · rw [hca, hst]
    exact h2
  · rw [hst, hpsa]
    exact h3
  · intro p hp
    rw [hpsa] at hp
    exact h4 p hp
  · intro ca p h1 h6
    rw [hca] at h1
    rw [hpsa] at h6
    rw [hpt]
    exact h5 ca p h1 h6

theorem entityInv_counter {clock : Nat} {a b : Analysis}
    (hb : b = preSave { a with views := a.views + 1 } ∨
          b = preSave { a with likes := a.likes + 1 } ∨
          b = preSave { a with shares := a.shares + 1 })
    (ha : entityInv clock a = true) : entityInv clock b = true := by
  have hv : mongooseValid a = true := ((entityInv_iff clock a).mp ha).1
  rcases hb with hb | hb | hb <;> subst hb <;>
    exact @entityInv_congr clock a _ (by rw [mongooseValid_preSave]; exact hv)
      (areaInv_preSave _) rfl rfl rfl rfl ha

theorem sysInv_set_preserve {s : Sys} {id : Nat} {a sa : Analysis}
    (hinv : sysInv s) (hg : dbGet s.db id = some a)
    (hent : entityInv s.clock sa = true) (hstat : sa.status = a.status) :
    sysInv { s with db := dbSet s.db id sa } := by
  obtain ⟨hdb, hnd, htb, hti⟩ := hinv
  refine ⟨?_, hnd, htb, ?_⟩
  · intro p hp
    rcases mem_upd hp with hp2 | ⟨hp2, y, hy⟩
    · exact hdb p hp2
    · subst hp2
      exact ⟨(hdb (id, y) hy).1, hent⟩
  · intro j hj b hb
    by_cases hji : j = id
    · subst hji
      rw [show dbGet (dbSet s.db j sa) j = some sa from lookup_upd_self sa hg] at hb
      cases hb
      rw [hstat]
      exact hti j hj a hg
    · rw [show dbGet (dbSet s.db id sa) j = dbGet s.db j from lookup_upd_ne sa hji] at hb
      exact hti j hj b hb

theorem sysInv_tick {s : Sys} (d : Nat) (h : sysInv s) : sysInv (tick s d) := by
  obtain ⟨hdb, hnd, htb, hti⟩ := h
  refine ⟨?_, hnd, htb, hti⟩
  intro p hp
  exact ⟨(hdb p hp).1, entityInv_mono (Nat.le_add_right _ _) (hdb p hp).2⟩

theorem sysInv_init : sysInv initSys := by
  refine ⟨?_, ?_, ?_, ?_⟩ <;> simp [initSys, sysInv]

theorem mongooseValid_score {a : Analysis} (r : Nat) (h : mongooseValid a = true) :
    mongooseValid { a with overallScore := r % 40 + 60 } = true := by
  simp only [mongooseValid, Bool.and_eq_true, decide_eq_true_iff] at h ⊢
  refine ⟨⟨⟨h.1.1.1, h.1.1.2⟩, h.1.2⟩, ?_⟩
  have : r % 40 < 40 := Nat.mod_lt _ (by omega)
  omega

theorem sysInv_step {s : Sys} (d : Nat) (op : Op) (h : sysInv s) :
    sysInv (stepOp s d op) := by
  have h1 : sysInv (tick s d) := sysInv_tick d h
  cases op with
  | create c inp =>
      show sysInv (createAnalysis (tick s d) c inp).2
      rcases create_sys (tick s d) c inp with he | ⟨sa, hst, hpsa, hca, hpt, hv, har, he⟩
      · rw [he]; exact h1
      · rw [he]
        obtain ⟨hdb, hnd, htb, hti⟩ := h1
        refine ⟨?_, hnd, ?_, ?_⟩
        · intro p hp
          rcases List.mem_cons.mp hp with hp | hp
          · subst hp
            refine ⟨Nat.lt_succ_self _, ?_⟩
            rw [entityInv_iff]
            refine ⟨hv, ?_, Or.inl hst, ?_, ?_, har⟩
            · rw [hca, hst]
              simp
            · intro p hp2
              rw [hpsa] at hp2
              cases hp2
            · intro ca p hca2 _
              rw [hca] at hca2
              cases hca2
          · exact ⟨Nat.lt_succ_of_lt (hdb p hp).1, (hdb p hp).2⟩
        · intro j hj
          exact Nat.lt_succ_of_lt (htb j hj)
        · intro j hj b hb
          have hjlt := htb j hj
          have hb2 : List.lookup j (((tick s d).nextId, sa) :: (tick s d).db) = some b := hb
          rw [lookup_cons_eq, if_neg (by omega)] at hb2
          exact hti j hj b hb2
  | view c id dbFail =>
      show sysInv (getAnalysisById (tick s d) c id dbFail).2
      rcases view_sys (tick s d) c id dbFail with he | ⟨a, hg, he⟩
      · rw [he]; exact h1
      · rw [he]
        exact sysInv_set_preserve h1 hg
          (entityInv_counter (Or.inl rfl) ((h1.1 (id, a) (lookup_mem hg)).2)) rfl
  | like c id =>
      show sysInv (likeAnalysis (tick s d) c id).2
      rcases like_sys (tick s d) c id with he | ⟨a, hg, he⟩
      · rw [he]; exact h1
      · rw [he]
        exact sysInv_set_preserve h1 hg
          (entityInv_counter (Or.inr (Or.inl rfl)) ((h1.1 (id, a) (lookup_mem hg)).2)) rfl
  | share c id =>
      show sysInv (shareAnalysis (tick s d) c id).2
      rcases share_sys (tick s d) c id with he | ⟨a, hg, he⟩
      · rw [he]; exact h1
      · rw [he]
        exact sysInv_set_preserve h1 hg
          (entityInv_counter (Or.inr (Or.inr rfl)) ((h1.1 (id, a) (lookup_mem hg)).2)) rfl
  | update c id inp =>
      show sysInv (updateAnalysis (tick s d) c id inp).2
      rcases update_sys (tick s d) c id inp with he | ⟨a, hg, hv, he⟩
      · rw [he]; exact h1
      · rw [he]
        obtain ⟨ho, hst, hpsa, hca, hpt, _⟩ := applyUpdate_fields a inp
        have hent : entityInv (tick s d).clock (preSave (applyUpdate a inp)) = true := by
          refine @entityInv_congr _ a _ ?_ (areaInv_preSave _) ?_ ?_ ?_ ?_
            ((h1.1 (id, a) (lookup_mem hg)).2)
          · rw [mongooseValid_preSave]; exact hv
          · rw [(preSave_fields _).2.2.2.2.1]; exact hst
          · rw [(preSave_fields _).2.2.2.2.2.1]; exact hpsa
          · rw [(preSave_fields _).2.2.2.2.2.2.1]; exact hca
          · rw [(preSave_fields _).2.2.2.2.2.2.2.1]; exact hpt
        refine sysInv_set_preserve h1 hg hent ?_
        rw [(preSave_fields _).2.2.2.2.1]; exact hst
  | del c id =>
      show sysInv (deleteAnalysis (tick s d) c id).2
      rcases del_sys (tick s d) c id with he | he
      · rw [he]; exact h1
      · rw [he]
        obtain ⟨hdb, hnd, htb, hti⟩ := h1
        refine ⟨?_, hnd, htb, ?_⟩
        · intro p hp
          exact hdb p (mem_remove hp)
        · intro j hj b hb
          unfold dbGet dbRemove at hb
          rw [lookup_remove] at hb
          by_cases hji : j = id
          · rw [if_pos hji] at hb
            cases hb
          · rw [if_neg hji] at hb
            exact hti j hj b hb
  | start c id =>
      show sysInv (startAnalysis (tick s d) c id).2
      rcases start_sys (tick s d) c id with he | ⟨a, hg, hpend, hv, he⟩
      · rw [he]; exact h1
      · rw [he]
        obtain ⟨hdb, hnd, htb, hti⟩ := h1
        have hmem := lookup_mem hg
        have hIdNew : id ∉ (tick s d).tasks := by
          intro hin
          have := hti id hin a hg
          rw [hpend] at this
          cases this
        have hentA := (hdb (id, a) hmem).2
        rw [entityInv_iff] at hentA
        obtain ⟨_, h2, _, _, _, _⟩ := hentA
        have hcaN : a.completedAt = none := by
          cases hca : a.completedAt with
          | none => rfl
          | some ca =>
              exfalso
              rcases h2.mp (by rw [hca]; rfl) with hcc | hcc <;>
                (rw [hpend] at hcc; cases hcc)
        have hent : entityInv (tick s d).clock
            (preSave (a.updateStatus Status.processing (tick s d).clock)) = true := by
          rw [entityInv_iff]
          refine ⟨?_, ?_, Or.inr rfl, ?_, ?_, areaInv_preSave _⟩
          · rw [mongooseValid_preSave, mongooseValid_updateStatus]
            exact hv
          · show a.completedAt.isSome ↔
              (Status.processing = Status.completed ∨ Status.processing = Status.failed)
            rw [hcaN]
            simp
          · intro p hp
            have hp2 : some ((tick s d).clock) = some p := hp
            cases hp2
            exact Nat.le_refl _
          · intro ca p hca _
            have hca2 : a.completedAt = some ca := hca
            rw [hcaN] at hca2
            cases hca2
        refine ⟨?_, ?_, ?_, ?_⟩
        · intro p hp
          rcases mem_upd hp with hp2 | ⟨hp2, y, hy⟩
          · exact hdb p hp2
          · subst hp2
            exact ⟨(hdb (id, y) hy).1, hent⟩
        · exact List.nodup_cons.mpr ⟨hIdNew, hnd⟩
        · intro j hj
          rcases List.mem_cons.mp hj with hj2 | hj2
          · subst hj2
            exact (hdb _ hmem).1
          · exact htb j hj2
        · intro j hj b hb
          rcases List.mem_cons.mp hj with hj2 | hj2
          · subst hj2
            rw [show dbGet (dbSet (tick s d).db j
                (preSave (Analysis.updateStatus a Status.processing (tick s d).clock))) j =
                some (preSave (Analysis.updateStatus a Status.processing (tick s d).clock))
              from lookup_upd_self _ hg] at hb
            cases hb
            rfl
          · by_cases hji : j = id
            · subst hji
              exact absurd hj2 hIdNew
            · rw [show dbGet (dbSet (tick s d).db id
                  (preSave (Analysis.updateStatus a Status.processing (tick s d).clock))) j =
                  dbGet (tick s d).db j from lookup_upd_ne _ hji] at hb
              exact hti j hj2 b hb
  | scoring id r ok =>
      show sysInv (runScoring (tick s d) id r ok)
      rcases scoring_sys (tick s d) id r ok with he | ⟨hm, he⟩ | ⟨hm, a, sa, hg, hsa, he⟩
      · rw [he]; exact h1
      · rw [he]
        obtain ⟨hdb, hnd, htb, hti⟩ := h1
        exact ⟨hdb, hnd.erase _, fun j hj => htb j (List.mem_of_mem_erase hj),
          fun j hj b hb => hti j (List.mem_of_mem_erase hj) b hb⟩
      · rw [he]
        obtain ⟨hdb, hnd, htb, hti⟩ := h1
        have hproc : a.status = Status.processing := hti id hm a hg
        have hentA : entityInv (tick s d).clock a = true := (hdb (id, a) (lookup_mem hg)).2
        rw [entityInv_iff] at hentA
        obtain ⟨hva, h2, h3, h4, _, _⟩ := hentA
        have hpsaS : ∃ p, a.processingStartedAt = some p := by
          rcases h3 with h3 | h3
          · rw [hproc] at h3
            cases h3
          · cases hpp : a.processingStartedAt with
            | none => rw [hpp] at h3; cases h3
            | some p => exact ⟨p, rfl⟩
        obtain ⟨p, hp⟩ := hpsaS
        have hple : p ≤ (tick s d).clock := h4 p hp
        have hent : entityInv (tick s d).clock sa = true := by
          rcases hsa with hsa | hsa <;> subst hsa
          · rw [updateStatus_completed _ _ (show Analysis.processingStartedAt
                { a with overallScore := r % 40 + 60 } = some p from hp)]
            rw [entityInv_iff]
            refine ⟨?_, ?_, Or.inr ?_, ?_, ?_, areaInv_preSave _⟩
            · rw [mongooseValid_preSave]
              exact @mongooseValid_score a r hva
            · constructor
              · intro _
                exact Or.inl rfl
              · intro _
                rfl
            · show a.processingStartedAt.isSome = true
              rw [hp]
              rfl
            · intro q hq
              have hq2 : a.processingStartedAt = some q := hq
              rw [hp] at hq2
              cases hq2
              exact hple
            · intro ca q hca hq
              have hca2 : some ((tick s d).clock) = some ca := hca
              have hq2 : a.processingStartedAt = some q := hq
              rw [hp] at hq2
              cases hca2
              cases hq2
              exact ⟨hple, rfl⟩
          · rw [updateStatus_completed _ _ (show Analysis.processingStartedAt
                { a with overallScore := r % 40 + 60 } = some p from hp)]
            rw [updateStatus_failed]
            rw [entityInv_iff]
            refine ⟨?_, ?_, Or.inr ?_, ?_, ?_, areaInv_preSave _⟩
            · rw [mongooseValid_preSave]
              exact @mongooseValid_score a r hva
            · constructor
              · intro _
                exact Or.inr rfl
              · intro _
                rfl
            · show a.processingStartedAt.isSome = true
              rw [hp]
              rfl
            · intro q hq
              have hq2 : a.processingStartedAt = some q := hq
              rw [hp] at hq2
              cases hq2
              exact hple
            · intro ca q hca hq
              have hca2 : some ((tick s d).clock) = some ca := hca
              have hq2 : a.processingStartedAt = some q := hq
              rw [hp] at hq2
              cases hca2
              cases hq2
              exact ⟨hple, rfl⟩
        refine ⟨?_, hnd.erase _, ?_, ?_⟩
        · intro q hq
          rcases mem_upd hq with hq2 | ⟨hq2, y, hy⟩
          · exact hdb q hq2
          · subst hq2
            exact ⟨(hdb (id, y) hy).1, hent⟩
        · intro j hj
          exact htb j (List.mem_of_mem_erase hj)
        · intro j hj b hb
          have hjne : j ≠ id := by
            intro hji
            subst hji
            exact (List.Nodup.mem_erase_iff hnd).mp hj |>.1 rfl
          rw [show dbGet (dbSet (tick s d).db id sa) j = dbGet (tick s d).db j
            from lookup_upd_ne _ hjne] at hb
          exact hti j (List.mem_of_mem_erase hj) b hb

theorem reach_sysInv {s : Sys} (h : Reach s) : sysInv s := by
  induction h with
  | init => exact sysInv_init
  | next d op _ ih => exact sysInv_step d op ih

theorem allowedEdge_refl (x : Status) : allowedEdge x x = true := by
  cases x <;> rfl

theorem allowedEdge_of_eq {x y : Status} (h : x = y) : allowedEdge x y = true := by
  subst h
  exact allowedEdge_refl x

theorem step_edges {s : Sys} (hinv : sysInv s) (d : Nat) (op : Op) {id : Nat}
    {a b : Analysis} (ha : dbGet s.db id = some a)
    (hb : dbGet (stepOp s d op).db id = some b) :
    allowedEdge a.status b.status = true := by
  have h1 : sysInv (tick s d) := sysInv_tick d hinv
  have ha1 : dbGet (tick s d).db id = some a := ha
  cases op with
  | create c inp =>
      rcases create_sys (tick s d) c inp with he | ⟨sa, _, _, _, _, _, _, he⟩
      · rw [show (stepOp s d (Op.create c inp)).db = (tick s d).db from congrArg Sys.db he] at hb
        cases ha1.symm.trans hb
        exact allowedEdge_refl _
      · rw [show (stepOp s d (Op.create c inp)).db =
            ((tick s d).nextId, sa) :: (tick s d).db from congrArg Sys.db he] at hb
        have hlt : id < (tick s d).nextId := (h1.1 (id, a) (lookup_mem ha1)).1
        have hb2 : List.lookup id (((tick s d).nextId, sa) :: (tick s d).db) = some b := hb
        rw [lookup_cons_eq, if_neg (by omega)] at hb2
        cases ha1.symm.trans hb2
        exact allowedEdge_refl _
  | view c id0 dbFail =>
      rcases view_sys (tick s d) c id0 dbFail with he | ⟨a0, hg, he⟩
      · rw [show (stepOp s d (Op.view c id0 dbFail)).db = (tick s d).db
            from congrArg Sys.db he] at hb
        cases ha1.symm.trans hb
        exact allowedEdge_refl _
      · rw [show (stepOp s d (Op.view c id0 dbFail)).db =
            dbSet (tick s d).db id0 (preSave { a0 with views := a0.views + 1 })
            from congrArg Sys.db he] at hb
        by_cases hid : id = id0
        · subst hid
          cases ha1.symm.trans hg
          cases (lookup_upd_self _ ha1).symm.trans hb
          exact allowedEdge_refl _
        · cases ha1.symm.trans ((lookup_upd_ne _ hid).symm.trans hb)
          exact allowedEdge_refl _
  | like c id0 =>
      rcases like_sys (tick s d) c id0 with he | ⟨a0, hg, he⟩
      · rw [show (stepOp s d (Op.like c id0)).db = (tick s d).db from congrArg Sys.db he] at hb
        cases ha1.symm.trans hb
        exact allowedEdge_refl _
      · rw [show (stepOp s d (Op.like c id0)).db =
            dbSet (tick s d).db id0 (preSave { a0 with likes := a0.likes + 1 })
            from congrArg Sys.db he] at hb
        by_cases hid : id = id0
        · subst hid
          cases ha1.symm.trans hg
          cases (lookup_upd_self _ ha1).symm.trans hb
          exact allowedEdge_refl _
        · cases ha1.symm.trans ((lookup_upd_ne _ hid).symm.trans hb)
          exact allowedEdge_refl _
  | share c id0 =>
      rcases share_sys (tick s d) c id0 with he | ⟨a0, hg, he⟩
      · rw [show (stepOp s d (Op.share c id0)).db = (tick s d).db from congrArg Sys.db he] at hb
        cases ha1.symm.trans hb
        exact allowedEdge_refl _
      · rw [show (stepOp s d (Op.share c id0)).db =
            dbSet (tick s d).db id0 (preSave { a0 with shares := a0.shares + 1 })
            from congrArg Sys.db he] at hb
        by_cases hid : id = id0
        · subst hid
          cases ha1.symm.trans hg
          cases (lookup_upd_self _ ha1).symm.trans hb
          exact allowedEdge_refl _
        · cases ha1.symm.trans ((lookup_upd_ne _ hid).symm.trans hb)
          exact allowedEdge_refl _
  | update c id0 inp =>
      rcases update_sys (tick s d) c id0 inp with he | ⟨a0, hg, _, he⟩
      · rw [show (stepOp s d (Op.update c id0 inp)).db = (tick s d).db
            from congrArg Sys.db he] at hb
        cases ha1.symm.trans hb
        exact allowedEdge_refl _
      · rw [show (stepOp s d (Op.update c id0 inp)).db =
            dbSet (tick s d).db id0 (preSave (applyUpdate a0 inp))
            from congrArg Sys.db he] at hb
        by_cases hid : id = id0
        · subst hid
          cases ha1.symm.trans hg
          cases (lookup_upd_self _ ha1).symm.trans hb
          refine allowedEdge_of_eq ?_
          rw [(preSave_fields _).2.2.2.2.1, (applyUpdate_fields _ _).2.1]
        · cases ha1.symm.trans ((lookup_upd_ne _ hid).symm.trans hb)
          exact allowedEdge_refl _
  | del c id0 =>
      rcases del_sys (tick s d) c id0 with he | he
      · rw [show (stepOp s d (Op.del c id0)).db = (tick s d).db from congrArg Sys.db he] at hb
        cases ha1.symm.trans hb
        exact allowedEdge_refl _
      · rw [show (stepOp s d (Op.del c id0)).db = dbRemove (tick s d).db id0
            from congrArg Sys.db he] at hb
        have hb2 : List.lookup id ((tick s d).db.filter (fun p => p.1 != id0)) = some b := hb
        rw [lookup_remove] at hb2
        by_cases hid : id = id0
        · rw [if_pos hid] at hb2
          cases hb2
        · rw [if_neg hid] at hb2
          cases ha1.symm.trans hb2
          exact allowedEdge_refl _
  | start c id0 =>
      rcases start_sys (tick s d) c id0 with he | ⟨a0, hg, hpend, _, he⟩
      · rw [show (stepOp s d (Op.start c id0)).db = (tick s d).db from congrArg Sys.db he] at hb
        cases ha1.symm.trans hb
        exact allowedEdge_refl _
      · rw [show (stepOp s d (Op.start c id0)).db =
            dbSet (tick s d).db id0
              (preSave (a0.updateStatus Status.processing (tick s d).clock))
            from congrArg Sys.db he] at hb
        by_cases hid : id = id0
        · subst hid
          cases ha1.symm.trans hg
          cases (lookup_upd_self _ ha1).symm.trans hb
          rw [hpend]
          rfl
        · cases ha1.symm.trans ((lookup_upd_ne _ hid).symm.trans hb)
          exact allowedEdge_refl _
  | scoring id0 r ok =>
      have hb0 : dbGet (runScoring (tick s d) id0 r ok).db id = some b := hb
      rcases scoring_sys (tick s d) id0 r ok with he | ⟨_, he⟩ | ⟨hm, a0, sa, hg, hsa, he⟩
      · rw [he] at hb0
        cases ha1.symm.trans hb0
        exact allowedEdge_refl _
      · rw [he] at hb0
        have hb1 : dbGet (tick s d).db id = some b := hb0
        cases ha1.symm.trans hb1
        exact allowedEdge_refl _
      · rw [he] at hb0
        have hb1 : dbGet (dbSet (tick s d).db id0 sa) id = some b := hb0
        by_cases hid : id = id0
        · subst hid
          cases ha1.symm.trans hg
          cases (lookup_upd_self _ ha1).symm.trans hb1
          have hproc : a.status = Status.processing := h1.2.2.2 id hm a ha1
          rcases hsa with hsa | hsa <;> subst hsa
          · have hbs : (preSave (({ a with overallScore := r % 40 + 60 }).updateStatus
                Status.completed (tick s d).clock)).status = Status.completed := by
              rw [(preSave_fields _).2.2.2.2.1,
                (updateStatus_fields _ _ _).2.2.2.2.2.2.2.2.2]
            rw [hbs, hproc]
            rfl
          · have hbs : (preSave ((({ a with overallScore := r % 40 + 60 }).updateStatus
                Status.completed (tick s d).clock).updateStatus Status.failed
                (tick s d).clock)).status = Status.failed := by
              rw [(preSave_fields _).2.2.2.2.1,
                (updateStatus_fields _ _ _).2.2.2.2.2.2.2.2.2]
            rw [hbs, hproc]
            rfl
        · cases ha1.symm.trans ((lookup_upd_ne _ hid).symm.trans hb1)
          exact allowedEdge_refl _

/-! ## Claim theorems -/

/-- C1: every Analysis status lies in the four-value enum (enforced here by
the Status type itself) and, across any exposed operation on any reachable
state, an entity present before and after moves only along the edges
pending to processing, processing to completed and processing to failed (or
stays put); moreover a start call on an entity whose status is not pending
is rejected with an unsuccessful response and leaves the stored entity, in
particular its status, unchanged. -/
theorem claim1_status_edges :
    (∀ (s : Sys), Reach s → ∀ (d : Nat) (op : Op) (id : Nat) (a b : Analysis),
        dbGet s.db id = some a → dbGet (stepOp s d op).db id = some b →
        allowedEdge a.status b.status = true) ∧
    (∀ (s : Sys) (c : Caller) (id : Nat) (a : Analysis),
        dbGet s.db id = some a → a.status ≠ Status.pending →
        (startAnalysis s c id).1.success = false ∧
        dbGet (startAnalysis s c id).2.db id = some a) := by
  constructor
  · intro s hs d op id a b ha hb
    exact step_edges (reach_sysInv hs) d op ha hb
  · intro s c id a ha hst
    unfold startAnalysis
    cases c with
    | anon => exact ⟨by trivial, ha⟩
    | auth uid prem =>
        by_cases hp : (!prem) = true
        · simp only [hp, if_true]
          exact ⟨by trivial, ha⟩
        · simp only [hp, if_false, Bool.false_eq_true, ha]
          by_cases ho : (uid != a.owner) = true
          · simp only [ho, if_true]
            exact ⟨by trivial, ha⟩
          · simp only [ho, if_false, Bool.false_eq_true]
            have hst2 : (a.status != Status.pending) = true := by
              simpa using hst
            simp only [hst2, if_true]
            exact ⟨by trivial, ha⟩

/-- Witness for C1 at concrete states: the create-then-start run from the
empty system takes the stored entity along the edge pending to processing,
and a second start attempt on the processing entity is rejected without a
status change. -/
theorem claim1_status_edges_witness :
    (dbGet sysPending.db 0 = some homeA ∧
     dbGet (stepOp sysPending 0 (Op.start (Caller.auth 7 true) 0)).db 0 = some procHome ∧
     allowedEdge homeA.status procHome.status = true) ∧
    (procHome.status ≠ Status.pending ∧
     (startAnalysis sysProc (Caller.auth 7 true) 0).1.success = false ∧
     dbGet (startAnalysis sysProc (Caller.auth 7 true) 0).2.db 0 = some procHome) :=
  ⟨⟨by decide, by decide,
    claim1_status_edges.1 sysPending
      (Reach.next 0 (Op.create (Caller.auth 7 true) inpHome) Reach.init)
      0 (Op.start (Caller.auth 7 true) 0) 0 homeA procHome (by decide) (by decide)⟩,
   ⟨by decide,
    claim1_status_edges.2 sysProc (Caller.auth 7 true) 0 procHome (by decide) (by decide)⟩⟩

/-- Counterexample to C3 as stated: in the reachable state sysFailed - the
create-start-scoring run in which the store rejected the completed save at
clock 5000 - the stored entity is failed yet carries completedAt 5000,
processingTime 5 and the mock score 73 of the aborted complete, because the
catch of the scoring callback (reachable only through that rejected save)
runs updateStatus failed on the document still holding those mutations; so
completedAt is not present only on completed entities, and the fail path
does not leave it unset. -/
theorem claim3_fail_completedAt_cex :
    dbGet sysFailed.db 0 = some failedHome ∧
    failedHome.status = Status.failed ∧
    failedHome.status ≠ Status.completed ∧
    failedHome.completedAt = some 5000 ∧
    failedHome.processingStartedAt = some 0 ∧
    failedHome.processingTime = some 5 ∧
    failedHome.overallScore = 73 := by
  decide

/-- C3 as amended: on every reachable state, completedAt is present exactly
on terminal (completed or failed) entities - the only fail transition in
the code is the scoring catch, reachable solely through a rejected
completed save, so a failed entity retains the completedAt, processingTime
and score stamped by the aborted complete, while pending and processing
entities have no completedAt; whenever completedAt and processingStartedAt
are both present, the stored processingTime is the rounded, non-negative
second difference and agrees with the processingDuration virtual; a failed
entity keeps its processingStartedAt; and the updateStatus failed call
itself touches neither completedAt nor processingStartedAt, which is
exactly why the aborted complete's stamps survive on the failed entity. -/
theorem claim3_completion_times :
    (∀ (s : Sys), Reach s → ∀ (id : Nat) (a : Analysis), dbGet s.db id = some a →
        (a.completedAt.isSome ↔
          (a.status = Status.completed ∨ a.status = Status.failed)) ∧
        ((a.status = Status.pending ∨ a.status = Status.processing) →
          a.completedAt = none) ∧
        (a.status = Status.failed → a.processingStartedAt.isSome)) ∧
    (∀ (s : Sys), Reach s → ∀ (id : Nat) (a : Analysis) (ca p : Nat),
        dbGet s.db id = some a → a.completedAt = some ca → a.processingStartedAt = some p →
        a.processingTime = some (jsRoundMsToSec ((ca : Int) - (p : Int))) ∧
        0 ≤ jsRoundMsToSec ((ca : Int) - (p : Int)) ∧
        processingDuration a = a.processingTime) ∧
    (∀ (a : Analysis) (now : Nat),
        (a.updateStatus Status.failed now).completedAt = a.completedAt ∧
        (a.updateStatus Status.failed now).processingStartedAt = a.processingStartedAt) := by
  refine ⟨?_, ?_, ?_⟩
  · intro s hs id a ha
    have hinv := (reach_sysInv hs).1 (id, a) (lookup_mem ha)
    rw [entityInv_iff] at hinv
    obtain ⟨_, h2, h3, _, _, _⟩ := hinv.2
    refine ⟨h2, ?_, ?_⟩
    · intro hps
      cases hca : a.completedAt with
      | none => rfl
      | some ca =>
          exfalso
          rcases h2.mp (by rw [hca]; rfl) with hcc | hcc <;>
            (rcases hps with hp2 | hp2 <;> (rw [hp2] at hcc; cases hcc))
    · intro hf
      rcases h3 with h3 | h3
      · rw [hf] at h3
        cases h3
      · exact h3
  · intro s hs id a ca p ha hca hp
    have hinv := (reach_sysInv hs).1 (id, a) (lookup_mem ha)
    rw [entityInv_iff] at hinv
    obtain ⟨_, _, _, _, h5, _⟩ := hinv.2
    obtain ⟨hle, hpt⟩ := h5 ca p hca hp
    refine ⟨hpt, ?_, ?_⟩
    · unfold jsRoundMsToSec
      have h0 : (0 : Int) ≤ (ca : Int) - (p : Int) + 500 := by
        have : (p : Int) ≤ (ca : Int) := by exact_mod_cast hle
        omega
      exact Int.fdiv_nonneg h0 (by omega)
    · unfold processingDuration
      rw [hca, hp, hpt]
  · intro a now
    exact ⟨rfl, rfl⟩

/-- Witness for the amended C3: on the persistence-failure run sysFailed
the failed entity carries both stamps, satisfies the terminal-status iff
and the processingTime formula (5 seconds), and the fail transition on
homeA keeps both stamps. -/
theorem claim3_completion_times_witness :
    (dbGet sysFailed.db 0 = some failedHome ∧
     ((failedHome.completedAt.isSome ↔
        (failedHome.status = Status.completed ∨ failedHome.status = Status.failed)) ∧
      ((failedHome.status = Status.pending ∨ failedHome.status = Status.processing) →
        failedHome.completedAt = none) ∧
      (failedHome.status = Status.failed → failedHome.processingStartedAt.isSome))) ∧
    (failedHome.completedAt = some 5000 ∧ failedHome.processingStartedAt = some 0 ∧
     (failedHome.processingTime = some (jsRoundMsToSec ((5000 : Int) - (0 : Int))) ∧
      0 ≤ jsRoundMsToSec ((5000 : Int) - (0 : Int)) ∧
      processingDuration failedHome = failedHome.processingTime)) ∧
    ((homeA.updateStatus Status.failed 9).completedAt = homeA.completedAt ∧
     (homeA.updateStatus Status.failed 9).processingStartedAt = homeA.processingStartedAt) := by
  refine ⟨⟨by decide, ?_⟩, ⟨by decide, by decide, ?_⟩, ?_⟩
  · exact claim3_completion_times.1 sysFailed
      (Reach.next 5000 (Op.scoring 0 13 false)
        (Reach.next 0 (Op.start (Caller.auth 7 true) 0)
          (Reach.next 0 (Op.create (Caller.auth 7 true) inpHome) Reach.init)))
      0 failedHome (by decide)
  · exact claim3_completion_times.2.1 sysFailed
      (Reach.next 5000 (Op.scoring 0 13 false)
        (Reach.next 0 (Op.start (Caller.auth 7 true) 0)
          (Reach.next 0 (Op.create (Caller.auth 7 true) inpHome) Reach.init)))
      0 failedHome 5000 0 (by decide) (by decide) (by decide)
  · exact claim3_completion_times.2.2 homeA 9

/-- Counterexample to C2 as stated: in sysPending the entity at id 0 exists,
is owned by caller 7 and is pending, yet a start request by owner 7 without
the premium entitlement is rejected 403 by the requirePremium middleware
(before any entity lookup) instead of succeeding, and nothing is persisted. -/
theorem claim2_premium_cex :
    dbGet sysPending.db 0 = some homeA ∧
    homeA.owner = 7 ∧ homeA.status = Status.pending ∧
    (startAnalysis sysPending (Caller.auth 7 false) 0).1.code = 403 ∧
    (startAnalysis sysPending (Caller.auth 7 false) 0).1.success = false ∧
    (startAnalysis sysPending (Caller.auth 7 false) 0).2.db = sysPending.db ∧
    (startAnalysis sysPending (Caller.auth 7 false) 0).2.tasks = sysPending.tasks := by
  decide

/-- C2 as amended: for a premium owner, start on an existing pending entity
returns 200 with the entity in processing state, stamps processingStartedAt
with the current clock, persists it, and only schedules the scoring task
(the id joins the task queue; the response does not wait for it and carries
no completion); with premium it fails 400 (ConflictError) when the status is
not pending, 403 (ForbiddenError) for a non-owner, and 404 (NotFoundError)
when no entity exists, each leaving the system unchanged.  A non-premium
caller is rejected 403 before any of these checks (see the
counterexample). -/
theorem claim2_start_contract :
    (∀ (s : Sys) (d : Nat) (id : Nat) (a : Analysis),
        Reach s → dbGet s.db id = some a → a.status = Status.pending →
        (startAnalysis (tick s d) (Caller.auth a.owner true) id).1.code = 200 ∧
        (startAnalysis (tick s d) (Caller.auth a.owner true) id).1.success = true ∧
        (startAnalysis (tick s d) (Caller.auth a.owner true) id).1.data =
          some (preSave (a.updateStatus Status.processing (s.clock + d))) ∧
        dbGet (startAnalysis (tick s d) (Caller.auth a.owner true) id).2.db id =
          some (preSave (a.updateStatus Status.processing (s.clock + d))) ∧
        (preSave (a.updateStatus Status.processing (s.clock + d))).status =
          Status.processing ∧
        (preSave (a.updateStatus Status.processing (s.clock + d))).processingStartedAt =
          some (s.clock + d) ∧
        (preSave (a.updateStatus Status.processing (s.clock + d))).completedAt = none ∧
        id ∈ (startAnalysis (tick s d) (Caller.auth a.owner true) id).2.tasks) ∧
    (∀ (s : Sys) (uid : Nat) (id : Nat) (a : Analysis),
        dbGet s.db id = some a → uid = a.owner → a.status ≠ Status.pending →
        (startAnalysis s (Caller.auth uid true) id).1.code = 400 ∧
        (startAnalysis s (Caller.auth uid true) id).1.success = false ∧
        (startAnalysis s (Caller.auth uid true) id).2 = s) ∧
    (∀ (s : Sys) (uid : Nat) (id : Nat) (a : Analysis),
        dbGet s.db id = some a → uid ≠ a.owner →
        (startAnalysis s (Caller.auth uid true) id).1.code = 403 ∧
        (startAnalysis s (Caller.auth uid true) id).1.success = false ∧
        (startAnalysis s (Caller.auth uid true) id).2 = s) ∧
    (∀ (s : Sys) (uid : Nat) (id : Nat),
        dbGet s.db id = none →
        (startAnalysis s (Caller.auth uid true) id).1.code = 404 ∧
        (startAnalysis s (Caller.auth uid true) id).1.success = false ∧
        (startAnalysis s (Caller.auth uid true) id).2 = s) := by
  refine ⟨?_, ?_, ?_, ?_⟩
  · intro s d id a hs ha hpend
    have hv : mongooseValid a = true :=
      ((entityInv_iff _ _).mp ((reach_sysInv hs).1 (id, a) (lookup_mem ha)).2).1
    have h2 := ((entityInv_iff _ _).mp ((reach_sysInv hs).1 (id, a) (lookup_mem ha)).2).2.1
    have hcaN : a.completedAt = none := by
      cases hca : a.completedAt with
      | none => rfl
      | some ca =>
          exfalso
          rcases h2.mp (by rw [hca]; rfl) with hcc | hcc <;>
            (rw [hpend] at hcc; cases hcc)
    have ha1 : dbGet (tick s d).db id = some a := ha
    have hms : mSave (a.updateStatus Status.processing ((tick s d).clock)) =
        some (preSave (a.updateStatus Status.processing ((tick s d).clock))) :=
      mSave_of_valid (by rw [mongooseValid_updateStatus]; exact hv)
    unfold startAnalysis
    simp only [Bool.not_true, Bool.false_eq_true, if_false, ha1, bne_self_eq_false,
      hpend, hms]
    refine ⟨by trivial, by trivial, by trivial, ?_, by trivial, by trivial, ?_, ?_⟩
    · exact lookup_upd_self _ ha1
    · exact hcaN
    · exact List.mem_cons_self _ _
  · intro s uid id a ha hu hst
    subst hu
    unfold startAnalysis
    have hst2 : (a.status != Status.pending) = true := by simpa using hst
    simp only [Bool.not_true, Bool.false_eq_true, if_false, ha, bne_self_eq_false,
      hst2, if_true]
    exact ⟨by trivial, by trivial, by trivial⟩
  · intro s uid id a ha hu
    unfold startAnalysis
    have hu2 : (uid != a.owner) = true := by simpa using hu
    simp only [Bool.not_true, Bool.false_eq_true, if_false, ha, hu2, if_true]
    exact ⟨by trivial, by trivial, by trivial⟩
  · intro s uid id ha
    unfold startAnalysis
    simp only [Bool.not_true, Bool.false_eq_true, if_false, ha]
    exact ⟨by trivial, by trivial, by trivial⟩

/-- Witness for the amended C2 at concrete inputs: the premium owner starts
the pending analysis of sysPending (200, processing, task queued), gets a
409-style 400 conflict on the processing entity of sysProc, 403 as a
non-owner, and 404 on a missing id. -/
theorem claim2_start_contract_witness :
    (dbGet sysPending.db 0 = some homeA ∧ homeA.status = Status.pending) ∧
    ((startAnalysis (tick sysPending 0) (Caller.auth homeA.owner true) 0).1.code = 200 ∧
     (startAnalysis (tick sysPending 0) (Caller.auth homeA.owner true) 0).1.success = true ∧
     (startAnalysis (tick sysPending 0) (Caller.auth homeA.owner true) 0).1.data =
       some (preSave (homeA.updateStatus Status.processing (sysPending.clock + 0))) ∧
     dbGet (startAnalysis (tick sysPending 0) (Caller.auth homeA.owner true) 0).2.db 0 =
       some (preSave (homeA.updateStatus Status.processing (sysPending.clock + 0))) ∧
     (preSave (homeA.updateStatus Status.processing (sysPending.clock + 0))).status =
       Status.processing ∧
     (preSave (homeA.updateStatus Status.processing (sysPending.clock + 0))).processingStartedAt =
       some (sysPending.clock + 0) ∧
     (preSave (homeA.updateStatus Status.processing (sysPending.clock + 0))).completedAt = none ∧
     0 ∈ (startAnalysis (tick sysPending 0) (Caller.auth homeA.owner true) 0).2.tasks) ∧
    ((startAnalysis sysProc (Caller.auth 7 true) 0).1.code = 400 ∧
     (startAnalysis sysProc (Caller.auth 7 true) 0).1.success = false ∧
     (startAnalysis sysProc (Caller.auth 7 true) 0).2 = sysProc) ∧
    ((startAnalysis sysPending (Caller.auth 8 true) 0).1.code = 403 ∧
     (startAnalysis sysPending (Caller.auth 8 true) 0).1.success = false ∧
     (startAnalysis sysPending (Caller.auth 8 true) 0).2 = sysPending) ∧
    ((startAnalysis sysPending (Caller.auth 7 true) 99).1.code = 404 ∧
     (startAnalysis sysPending (Caller.auth 7 true) 99).1.success = false ∧
     (startAnalysis sysPending (Caller.auth 7 true) 99).2 = sysPending) :=
  ⟨⟨by decide, by decide⟩,
   claim2_start_contract.1 sysPending 0 0 homeA
     (Reach.next 0 (Op.create (Caller.auth 7 true) inpHome) Reach.init)
     (by decide) (by decide),
   claim2_start_contract.2.1 sysProc 7 0 procHome (by decide) (by decide) (by decide),
   claim2_start_contract.2.2.1 sysPending 8 0 homeA (by decide) (by decide),
   claim2_start_contract.2.2.2 sysPending 7 99 (by decide)⟩

/-- Counterexample to C4 as stated: creating an analysis whose kitchen room
carries length 0, width 5 and a caller-chosen area of 999 persists that
area unchanged (0 is JS-falsy, so the pre-save hook skips the
recomputation), even though both length and width are present and their
product is 0; the top-level area 777 is likewise persisted without any
length or width, so area is caller-settable. -/
theorem claim4_area_cex :
    Option.map (fun a => a.floorPlan.rooms.map (fun r =>
        (r.dims.length, r.dims.width, r.dims.area))) (dbGet sysZeroLen.db 0) =
      some [(some 0, some 5, some 999)] ∧
    ((0 : Int) * 5 = 0 ∧ (999 : Int) ≠ 0) ∧
    Option.map (fun a => a.floorPlan.dims.length) (dbGet sysZeroLen.db 0) = some none ∧
    Option.map (fun a => a.floorPlan.dims.area) (dbGet sysZeroLen.db 0) =
      some (some 777) := by
  decide

/-- C4 as amended: on every reachable state, the top-level area and every
room area equal length times width whenever both are present and nonzero
(JS-truthy); the recomputation runs on every save (any entity passed
through the pre-save hook satisfies the same property).  When either value
is missing or zero the hook leaves the stored area alone, so a caller can
then set it independently (see the counterexample). -/
theorem claim4_area_product :
    (∀ (s : Sys), Reach s → ∀ (id : Nat) (a : Analysis), dbGet s.db id = some a →
        areaInv a = true) ∧
    (∀ (a : Analysis), areaInv (preSave a) = true) ∧
    (∀ (d : Dims) (l w : Int), d.length = some l → d.width = some w →
        l ≠ 0 → w ≠ 0 → (recalcDims d).area = some (l * w)) := by
  refine ⟨?_, areaInv_preSave, ?_⟩
  · intro s hs id a ha
    exact ((entityInv_iff _ _).mp ((reach_sysInv hs).1 (id, a) (lookup_mem ha)).2).2.2.2.2.2
  · intro d l w hl hw hl0 hw0
    unfold recalcDims
    have ht : (optTruthy d.length && optTruthy d.width) = true := by
      unfold optTruthy
      rw [hl, hw]
      simp [hl0, hw0]
    rw [if_pos ht, hl, hw]
    simp

/-- Witness for the amended C4: the reachable entity of sysPending satisfies
the area invariant, and the hook recomputes a concrete nonzero record. -/
theorem claim4_area_product_witness :
    (dbGet sysPending.db 0 = some homeA ∧ areaInv homeA = true) ∧
    areaInv (preSave invalidPub) = true ∧
    ((recalcDims { length := some 4, width := some 6, area := some 999 }).area =
      some ((4 : Int) * 6)) :=
  ⟨⟨by decide,
    claim4_area_product.1 sysPending
      (Reach.next 0 (Op.create (Caller.auth 7 true) inpHome) Reach.init) 0 homeA (by decide)⟩,
   claim4_area_product.2.1 invalidPub,
   claim4_area_product.2.2 { length := some 4, width := some 6, area := some 999 } 4 6
     (by decide) (by decide) (by decide) (by decide)⟩

/-- C5: a caller who is not the owner (anonymous included) gets a successful
get-by-id with the entity exactly when isPublic is true, and a 403 rejection
otherwise (under working persistence); update, delete and start reject every
authenticated non-owner with 403 regardless of visibility (for start, a
non-premium non-owner is rejected 403 by the premium gate and a premium
non-owner 403 by the ownership check), leaving the system unchanged. -/
theorem claim5_visibility :
    (∀ (s : Sys) (c : Caller) (id : Nat) (a : Analysis),
        dbGet s.db id = some a → callerIsOwner c a = false →
        (((getAnalysisById s c id false).1.success = true) ↔ a.isPublic = true) ∧
        ((getAnalysisById s c id false).1.data.isSome = true ↔ a.isPublic = true) ∧
        (a.isPublic = false → (getAnalysisById s c id false).1.code = 403)) ∧
    (∀ (s : Sys) (uid : Nat) (prem : Bool) (id : Nat) (a : Analysis) (inp : UpdateInput),
        dbGet s.db id = some a → uid ≠ a.owner →
        (updateAnalysis s (Caller.auth uid prem) id inp).1.code = 403 ∧
        (updateAnalysis s (Caller.auth uid prem) id inp).2 = s) ∧
    (∀ (s : Sys) (uid : Nat) (prem : Bool) (id : Nat) (a : Analysis),
        dbGet s.db id = some a → uid ≠ a.owner →
        (deleteAnalysis s (Caller.auth uid prem) id).1.code = 403 ∧
        (deleteAnalysis s (Caller.auth uid prem) id).2 = s) ∧
    (∀ (s : Sys) (uid : Nat) (prem : Bool) (id : Nat) (a : Analysis),
        dbGet s.db id = some a → uid ≠ a.owner →
        (startAnalysis s (Caller.auth uid prem) id).1.code = 403 ∧
        (startAnalysis s (Caller.auth uid prem) id).2 = s) := by
  refine ⟨?_, ?_, ?_, ?_⟩
  · intro s c id a ha ho
    unfold getAnalysisById
    by_cases hpub : a.isPublic = true
    · simp [ha, ho, hpub]
    · have hpub2 : a.isPublic = false := by
        cases hb : a.isPublic
        · rfl
        · exact absurd hb hpub
      simp [ha, ho, hpub2]
  · intro s uid prem id a inp ha hu
    unfold updateAnalysis
    have hu2 : (uid != a.owner) = true := by simpa using hu
    simp only [ha, hu2, if_true]
    exact ⟨by trivial, by trivial⟩
  · intro s uid prem id a ha hu
    unfold deleteAnalysis
    have hu2 : (uid != a.owner) = true := by simpa using hu
    simp only [ha, hu2, if_true]
    exact ⟨by trivial, by trivial⟩
  · intro s uid prem id a ha hu
    unfold startAnalysis
    have hu2 : (uid != a.owner) = true := by simpa using hu
    cases prem with
    | false =>
        simp only [Bool.not_false, if_true]
        exact ⟨by trivial, by trivial⟩
    | true =>
        simp only [Bool.not_true, Bool.false_eq_true, if_false, ha, hu2, if_true]
        exact ⟨by trivial, by trivial⟩

/-- Witness for C5 at concrete inputs: the anonymous caller reads the public
entity of sysPub but not the private entity of sysPending, and authenticated
non-owner 8 is rejected 403 by update, delete and start. -/
theorem claim5_visibility_witness :
    (dbGet sysPub.db 0 = some pubAnalysis ∧
     callerIsOwner Caller.anon pubAnalysis = false ∧
     (((getAnalysisById sysPub Caller.anon 0 false).1.success = true) ↔
        pubAnalysis.isPublic = true) ∧
     ((getAnalysisById sysPub Caller.anon 0 false).1.data.isSome = true ↔
        pubAnalysis.isPublic = true) ∧
     (pubAnalysis.isPublic = false →
        (getAnalysisById sysPub Caller.anon 0 false).1.code = 403)) ∧
    (((getAnalysisById sysPending Caller.anon 0 false).1.success = true) ↔
       homeA.isPublic = true) ∧
    ((updateAnalysis sysPending (Caller.auth 8 false) 0 {}).1.code = 403 ∧
     (updateAnalysis sysPending (Caller.auth 8 false) 0 {}).2 = sysPending) ∧
    ((deleteAnalysis sysPending (Caller.auth 8 false) 0).1.code = 403 ∧
     (deleteAnalysis sysPending (Caller.auth 8 false) 0).2 = sysPending) ∧
    ((startAnalysis sysPending (Caller.auth 8 false) 0).1.code = 403 ∧
     (startAnalysis sysPending (Caller.auth 8 false) 0).2 = sysPending) :=
  ⟨⟨by decide, by decide,
    (claim5_visibility.1 sysPub Caller.anon 0 pubAnalysis (by decide) (by decide))⟩,
   (claim5_visibility.1 sysPending Caller.anon 0 homeA (by decide) (by decide)).1,
   claim5_visibility.2.1 sysPending 8 false 0 homeA {} (by decide) (by decide),
   claim5_visibility.2.2.1 sysPending 8 false 0 homeA (by decide) (by decide),
   claim5_visibility.2.2.2 sysPending 8 false 0 homeA (by decide) (by decide)⟩

/-- Counterexample to C6 as stated: on a public entity read by a non-owner,
a failure to persist the view-counter increment does fail the read: the
handler awaits incrementViews, catchAsync forwards the rejection to the
error handler, and the caller receives a 500 error with no entity instead
of the analysis. -/
theorem claim6_view_failure_cex :
    pubAnalysis.isPublic = true ∧
    callerIsOwner Caller.anon pubAnalysis = false ∧
    dbGet sysPub.db 0 = some pubAnalysis ∧
    (getAnalysisById sysPub Caller.anon 0 true).1.code = 500 ∧
    (getAnalysisById sysPub Caller.anon 0 true).1.success = false ∧
    (getAnalysisById sysPub Caller.anon 0 true).1.data = none := by
  decide

/-- C6 as amended: a successful non-owner read of a public entity increments
views by exactly one and persists it through save(validateBeforeSave false),
so the increment is never blocked by an otherwise-invalid field (no
validity hypothesis appears below, and the second part states it for an
entity failing validation outright); however, when persisting the increment
fails, the read itself fails with a 500 error and no data (the
counterexample shows the concrete run). -/
theorem claim6_view_increment :
    (∀ (s : Sys) (c : Caller) (id : Nat) (a : Analysis),
        dbGet s.db id = some a → callerIsOwner c a = false → a.isPublic = true →
        (getAnalysisById s c id false).1.code = 200 ∧
        Option.map (fun b => b.views) (dbGet (getAnalysisById s c id false).2.db id) =
          some (a.views + 1)) ∧
    (∀ (s : Sys) (c : Caller) (id : Nat) (a : Analysis),
        dbGet s.db id = some a → callerIsOwner c a = false → a.isPublic = true →
        mongooseValid a = false →
        (getAnalysisById s c id false).1.success = true) ∧
    (∀ (s : Sys) (c : Caller) (id : Nat) (a : Analysis),
        dbGet s.db id = some a → callerIsOwner c a = false → a.isPublic = true →
        (getAnalysisById s c id true).1.code = 500 ∧
        (getAnalysisById s c id true).1.success = false ∧
        (getAnalysisById s c id true).2 = s) := by
  refine ⟨?_, ?_, ?_⟩
  · intro s c id a ha ho hpub
    unfold getAnalysisById
    have hc2 : (!callerIsOwner c a) = true := by
      simp [ho]
    have hnp : (!a.isPublic) = false := by
      simp [hpub]
    simp only [ha, hc2, Bool.and_true, hnp, Bool.false_eq_true, if_false, if_true]
    refine ⟨by trivial, ?_⟩
    rw [show dbGet (dbSet s.db id (mSaveNoValidate { a with views := a.views + 1 })) id =
        some (mSaveNoValidate { a with views := a.views + 1 }) from lookup_upd_self _ ha]
    rfl
  · intro s c id a ha ho hpub _
    unfold getAnalysisById
    simp [ha, ho, hpub]
  · intro s c id a ha ho hpub
    unfold getAnalysisById
    have hc2 : (!callerIsOwner c a) = true := by
      simp [ho]
    have hnp : (!a.isPublic) = false := by
      simp [hpub]
    simp only [ha, hc2, Bool.and_true, hnp, Bool.false_eq_true, if_false, if_true]
    exact ⟨by trivial, by trivial, by trivial⟩

/-- Witness for the amended C6: the anonymous read of sysPub returns 200 and
bumps views to 1; the same read works on the validation-violating entity of
sysInvalid (empty title, so mongooseValid is false); and with failing
persistence the read returns 500 unchanged. -/
theorem claim6_view_increment_witness :
    (dbGet sysPub.db 0 = some pubAnalysis ∧ pubAnalysis.views = 0 ∧
     (getAnalysisById sysPub Caller.anon 0 false).1.code = 200 ∧
     Option.map (fun b => b.views) (dbGet (getAnalysisById sysPub Caller.anon 0 false).2.db 0) =
       some (pubAnalysis.views + 1)) ∧
    (mongooseValid invalidPub = false ∧
     (getAnalysisById sysInvalid Caller.anon 0 false).1.success = true) ∧
    ((getAnalysisById sysPub Caller.anon 0 true).1.code = 500 ∧
     (getAnalysisById sysPub Caller.anon 0 true).1.success = false ∧
     (getAnalysisById sysPub Caller.anon 0 true).2 = sysPub) :=
  ⟨⟨by decide, by decide,
    claim6_view_increment.1 sysPub Caller.anon 0 pubAnalysis (by decide) (by decide) (by decide)⟩,
   ⟨by decide,
    claim6_view_increment.2.1 sysInvalid Caller.anon 0 invalidPub
      (by decide) (by decide) (by decide) (by decide)⟩,
   claim6_view_increment.2.2 sysPub Caller.anon 0 pubAnalysis
     (by decide) (by decide) (by decide)⟩

/-- Counterexample to C7 as stated: with the two start requests interleaved
at their awaits (both findById reads resolve before either check-and-save
runs), both callers observe pending, both receive 200 — the second is not
rejected with ConflictError — and two scoring callbacks are scheduled; and
two interleaved like increments on a fresh public entity leave likes at 1,
not 2, because the second save overwrites the first. -/
theorem claim7_interleaving_cex :
    pubAnalysis.status = Status.pending ∧
    (twoStartsInterleaved sysPub 7 0).1.code = 200 ∧
    (twoStartsInterleaved sysPub 7 0).2.1.code = 200 ∧
    (twoStartsInterleaved sysPub 7 0).2.2.tasks = [0, 0] ∧
    pubAnalysis.likes = 0 ∧
    Option.map (fun b => b.likes) (dbGet (twoLikesInterleaved sysPub 0).db 0) = some 1 := by
  decide

theorem likeSeq_likes :
    ∀ (n : Nat) (s : Sys) (uid : Nat) (prem : Bool) (id : Nat) (a : Analysis),
      dbGet s.db id = some a → a.isPublic = true →
      Option.map (fun b => b.likes)
        (dbGet (likeSeq s (Caller.auth uid prem) id n).db id) = some (a.likes + n) := by
  intro n
  induction n with
  | zero =>
      intro s uid prem id a ha _
      unfold likeSeq
      rw [ha]
      rfl
  | succ n ih =>
      intro s uid prem id a ha hpub
      unfold likeSeq
      have hE : (likeAnalysis s (Caller.auth uid prem) id).2 =
          { s with db := dbSet s.db id (preSave { a with likes := a.likes + 1 }) } := by
        unfold likeAnalysis
        have hnp : (!a.isPublic) = false := by simp [hpub]
        simp only [ha, hnp, Bool.false_eq_true, if_false]
        rfl
      rw [hE]
      have hg2 : dbGet (dbSet s.db id (preSave { a with likes := a.likes + 1 })) id =
          some (preSave { a with likes := a.likes + 1 }) := lookup_upd_self _ ha
      have := ih { s with db := dbSet s.db id (preSave { a with likes := a.likes + 1 }) }
        uid prem id (preSave { a with likes := a.likes + 1 }) hg2 hpub
      rw [this]
      show some ((a.likes + 1) + n) = some (a.likes + (n + 1))
      exact congrArg some (by omega)

/-- C7 as amended: the check-and-set of start and the counter increments are
atomic only under sequential execution: when the second start runs after the
first completed, it observes processing and is rejected 400 with the state
unchanged, and exactly one scoring task is queued; n like requests run one
after another increase likes by exactly n.  Under the interleaved schedule
the code loses both guarantees (see the counterexample): the operations are
read-modify-write sequences across awaits, not atomic. -/
theorem claim7_sequential_atomicity :
    (∀ (s : Sys) (d1 : Nat) (id : Nat) (a : Analysis),
        Reach s → dbGet s.db id = some a → a.status = Status.pending →
        (startAnalysis (tick s d1) (Caller.auth a.owner true) id).1.code = 200 ∧
        (startAnalysis (startAnalysis (tick s d1) (Caller.auth a.owner true) id).2
            (Caller.auth a.owner true) id).1.code = 400 ∧
        (startAnalysis (startAnalysis (tick s d1) (Caller.auth a.owner true) id).2
            (Caller.auth a.owner true) id).2 =
          (startAnalysis (tick s d1) (Caller.auth a.owner true) id).2 ∧
        (startAnalysis (tick s d1) (Caller.auth a.owner true) id).2.tasks.count id = 1) ∧
    (∀ (s : Sys) (uid : Nat) (prem : Bool) (id : Nat) (a : Analysis) (n : Nat),
        dbGet s.db id = some a → a.isPublic = true →
        Option.map (fun b => b.likes)
          (dbGet (likeSeq s (Caller.auth uid prem) id n).db id) = some (a.likes + n)) := by
  constructor
  · intro s d1 id a hs ha hpend
    have hv : mongooseValid a = true :=
      ((entityInv_iff _ _).mp ((reach_sysInv hs).1 (id, a) (lookup_mem ha)).2).1
    have ha1 : dbGet (tick s d1).db id = some a := ha
    have hms : mSave (a.updateStatus Status.processing ((tick s d1).clock)) =
        some (preSave (a.updateStatus Status.processing ((tick s d1).clock))) :=
      mSave_of_valid (by rw [mongooseValid_updateStatus]; exact hv)
    have hE : startAnalysis (tick s d1) (Caller.auth a.owner true) id =
        ({ code := 200, success := true, msg := "Analysis processing started",
           data := some (preSave (a.updateStatus Status.processing ((tick s d1).clock))) },
         { db := dbSet (tick s d1).db id
             (preSave (a.updateStatus Status.processing ((tick s d1).clock)))
           tasks := id :: (tick s d1).tasks
           nextId := (tick s d1).nextId
           clock := (tick s d1).clock }) := by
      unfold startAnalysis
      simp only [Bool.not_true, Bool.false_eq_true, if_false, ha1, bne_self_eq_false,
        hpend, hms]
    have hIdNew : id ∉ (tick s d1).tasks := by
      intro hin
      have := (sysInv_tick d1 (reach_sysInv hs)).2.2.2 id hin a ha1
      rw [hpend] at this
      cases this
    rw [hE]
    have hg2 : dbGet (dbSet (tick s d1).db id
        (preSave (a.updateStatus Status.processing ((tick s d1).clock)))) id =
        some (preSave (a.updateStatus Status.processing ((tick s d1).clock))) :=
      lookup_upd_self _ ha1
    refine ⟨rfl, ?_, ?_, ?_⟩
    · unfold startAnalysis
      simp only [Bool.not_true, Bool.false_eq_true, if_false, hg2]
      have how : ((preSave (a.updateStatus Status.processing
          ((tick s d1).clock))).owner != (preSave (a.updateStatus Status.processing
          ((tick s d1).clock))).owner) = false := bne_self_eq_false _
      have hproc : ((preSave (a.updateStatus Status.processing
          ((tick s d1).clock))).status != Status.pending) = true := by
        rw [(preSave_fields _).2.2.2.2.1, (updateStatus_fields _ _ _).2.2.2.2.2.2.2.2.2]
        rfl
      rw [show (preSave (a.updateStatus Status.processing ((tick s d1).clock))).owner =
          a.owner from (preSave_fields _).1.trans (updateStatus_fields _ _ _).1]
      simp only [bne_self_eq_false, Bool.false_eq_true, if_false, hproc, if_true]
    · unfold startAnalysis
      simp only [Bool.not_true, Bool.false_eq_true, if_false, hg2]
      have hproc : ((preSave (a.updateStatus Status.processing
          ((tick s d1).clock))).status != Status.pending) = true := by
        rw [(preSave_fields _).2.2.2.2.1, (updateStatus_fields _ _ _).2.2.2.2.2.2.2.2.2]
        rfl
      rw [show (preSave (a.updateStatus Status.processing ((tick s d1).clock))).owner =
          a.owner from (preSave_fields _).1.trans (updateStatus_fields _ _ _).1]
      simp only [bne_self_eq_false, Bool.false_eq_true, if_false, hproc, if_true]
    · show List.count id (id :: (tick s d1).tasks) = 1
      rw [List.count_cons_self]
      rw [List.count_eq_zero.mpr hIdNew]
  · intro s uid prem id a n ha hpub
    exact likeSeq_likes n s uid prem id a ha hpub

/-- Witness for the amended C7: on sysPending the premium owner starts once
with 200, a second sequential start gets 400 with one queued task, and two
sequential likes on sysPub raise likes from 0 to 2. -/
theorem claim7_sequential_atomicity_witness :
    (dbGet sysPending.db 0 = some homeA ∧ homeA.status = Status.pending) ∧
    ((startAnalysis (tick sysPending 0) (Caller.auth homeA.owner true) 0).1.code = 200 ∧
     (startAnalysis (startAnalysis (tick sysPending 0) (Caller.auth homeA.owner true) 0).2
         (Caller.auth homeA.owner true) 0).1.code = 400 ∧
     (startAnalysis (startAnalysis (tick sysPending 0) (Caller.auth homeA.owner true) 0).2
         (Caller.auth homeA.owner true) 0).2 =
       (startAnalysis (tick sysPending 0) (Caller.auth homeA.owner true) 0).2 ∧
     (startAnalysis (tick sysPending 0) (Caller.auth homeA.owner true) 0).2.tasks.count 0 = 1) ∧
    (dbGet sysPub.db 0 = some pubAnalysis ∧ pubAnalysis.isPublic = true ∧
     Option.map (fun b => b.likes)
       (dbGet (likeSeq sysPub (Caller.auth 9 false) 0 2).db 0) = some (pubAnalysis.likes + 2)) :=
  ⟨⟨by decide, by decide⟩,
   claim7_sequential_atomicity.1 sysPending 0 0 homeA
     (Reach.next 0 (Op.create (Caller.auth 7 true) inpHome) Reach.init)
     (by decide) (by decide),
   ⟨by decide, by decide,
    claim7_sequential_atomicity.2 sysPub 9 false 0 pubAnalysis 2 (by decide) (by decide)⟩⟩

theorem uploadLoop_success (ok : Nat → Bool) :
    ∀ (files : List FileIn) (i : Nat) (b : Blob) (acc : List (Nat × FileIn)),
      (uploadLoop ok files i b acc).2.2 = true ↔
        ∀ k, k < files.length → ok (i + k) = true := by
  intro files
  induction files with
  | nil =>
      intro i b acc
      simp [uploadLoop]
  | cons f rest ih =>
      intro i b acc
      unfold uploadLoop cloudUpload
      by_cases h : ok i = true
      · rw [h, if_pos rfl]
        rw [ih (i + 1) _ _]
        constructor
        · intro H k hk
          cases k with
          | zero => simpa using h
          | succ k2 =>
              have hk2 : k2 < rest.length := by
                simpa [Nat.succ_lt_succ_iff] using hk
              have := H k2 hk2
              have heq : i + 1 + k2 = i + (k2 + 1) := by omega
              rw [heq] at this
              exact this
        · intro H k hk
          have heq : i + 1 + k = i + (k + 1) := by omega
          rw [heq]
          exact H (k + 1) (by simpa [Nat.succ_lt_succ_iff] using hk)
      · have h2 : ok i = false := by
          cases hh : ok i
          · rfl
          · exact absurd hh h
        rw [h2, if_neg (by simp)]
        simp only [List.length_cons]
        constructor
        · intro H
          cases H
        · intro H
          exact absurd (H 0 (by omega)) (by simpa using h)

theorem uploadLoop_blob (ok : Nat → Bool) :
    ∀ (files : List FileIn) (i : Nat) (b : Blob) (acc : List (Nat × FileIn)),
      (∀ x ∈ b.stored, x < b.nextBlobId) →
      ∃ newIds : List Nat,
        (uploadLoop ok files i b acc).1.map Prod.fst =
          (acc.reverse.map Prod.fst) ++ newIds ∧
        (uploadLoop ok files i b acc).2.1.stored = newIds.reverse ++ b.stored ∧
        (∀ x ∈ newIds, b.nextBlobId ≤ x) := by
  intro files
  induction files with
  | nil =>
      intro i b acc hb
      refine ⟨[], by simp [uploadLoop], by simp [uploadLoop], by simp⟩
  | cons f rest ih =>
      intro i b acc hb
      unfold uploadLoop cloudUpload
      by_cases h : ok i = true
      · rw [h, if_pos rfl]
        have hb2 : ∀ x ∈ b.nextBlobId :: b.stored, x < b.nextBlobId + 1 := by
          intro x hx
          rcases List.mem_cons.mp hx with hx | hx
          · omega
          · have := hb x hx
            omega
        obtain ⟨newIds, h1, h2, h3⟩ := ih (i + 1)
          (Blob.mk (b.nextBlobId :: b.stored) (b.nextBlobId + 1)) ((b.nextBlobId, f) :: acc) hb2
        refine ⟨b.nextBlobId :: newIds, ?_, ?_, ?_⟩
        · rw [h1]
          simp [List.reverse_cons, List.map_append]
        · rw [h2]
          simp [List.reverse_cons, List.append_assoc]
        · intro x hx
          rcases List.mem_cons.mp hx with hx | hx
          · omega
          · have h4 : b.nextBlobId + 1 ≤ x := h3 x hx
            omega
      · have h2 : ok i = false := by
          cases hh : ok i
          · rfl
          · exact absurd hh h
        rw [h2, if_neg (by simp)]
        refine ⟨[], by simp, by simp, by simp⟩

theorem cleanupBatch_all_ok (dok : Nat → Bool) :
    ∀ (pids : List Nat) (b : Blob), (∀ p ∈ pids, dok p = true) →
      (cleanupBatch dok b pids).stored =
        b.stored.filter (fun x => !(pids.contains x)) := by
  intro pids
  induction pids with
  | nil =>
      intro b _
      unfold cleanupBatch
      simp
  | cons p ps ih =>
      intro b hall
      have hp : dok p = true := hall p (by simp)
      unfold cleanupBatch at ih ⊢
      simp only [List.foldl_cons]
      have hstep : cloudDestroy b p (dok p) =
          Blob.mk (b.stored.filter (fun x => x != p)) b.nextBlobId := by
        unfold cloudDestroy
        rw [hp, if_pos rfl]
      rw [hstep]
      rw [ih (Blob.mk (b.stored.filter (fun x => x != p)) b.nextBlobId)
        (fun q hq => hall q (by simp [hq]))]
      rw [List.filter_filter]
      apply List.filter_congr
      intro x _
      by_cases hxp : x = p
      · subst hxp
        simp
      · simp [hxp, Ne.symm hxp]

/-- C8: when any file of a non-empty batch fails at the Blob Store (or the
later Analysis.create step fails), the upload handler aborts with an
unsuccessful response, creates no Analysis, and issues a destroy request
for exactly the files uploaded earlier in the batch; the cleanup is
best-effort, and when every destroy succeeds the Blob Store is restored to
its pre-batch contents. -/
theorem claim8_upload_cleanup :
    (∀ (files : List FileIn) (uploadOk destroyOk : Nat → Bool) (createOk : Bool) (b : Blob),
        files ≠ [] → (∀ x ∈ b.stored, x < b.nextBlobId) →
        ((∃ k, k < files.length ∧ uploadOk k = false) ∨ createOk = false) →
        (uploadFilesHandler files uploadOk destroyOk createOk b).resp.success = false ∧
        (uploadFilesHandler files uploadOk destroyOk createOk b).created = none ∧
        (uploadFilesHandler files uploadOk destroyOk createOk b).destroys =
          (uploadLoop uploadOk files 0 b []).1.map Prod.fst) ∧
    (∀ (files : List FileIn) (uploadOk destroyOk : Nat → Bool) (createOk : Bool) (b : Blob),
        files ≠ [] → (∀ x ∈ b.stored, x < b.nextBlobId) →
        ((∃ k, k < files.length ∧ uploadOk k = false) ∨ createOk = false) →
        (∀ pid, destroyOk pid = true) →
        (uploadFilesHandler files uploadOk destroyOk createOk b).blob.stored = b.stored) := by
  have main : ∀ (files : List FileIn) (uploadOk destroyOk : Nat → Bool) (createOk : Bool)
      (b : Blob),
      files ≠ [] → (∀ x ∈ b.stored, x < b.nextBlobId) →
      ((∃ k, k < files.length ∧ uploadOk k = false) ∨ createOk = false) →
      (uploadFilesHandler files uploadOk destroyOk createOk b).resp.success = false ∧
      (uploadFilesHandler files uploadOk destroyOk createOk b).created = none ∧
      (uploadFilesHandler files uploadOk destroyOk createOk b).destroys =
        (uploadLoop uploadOk files 0 b []).1.map Prod.fst ∧
      (uploadFilesHandler files uploadOk destroyOk createOk b).blob =
        cleanupBatch destroyOk (uploadLoop uploadOk files 0 b []).2.1
          ((uploadLoop uploadOk files 0 b []).1.map Prod.fst) := by
    intro files uploadOk destroyOk createOk b hne hb hfail
    unfold uploadFilesHandler
    have hemp : files.isEmpty = false := by
      cases files with
      | nil => exact absurd rfl hne
      | cons f r => rfl
    rw [hemp, if_neg (by simp)]
    dsimp only
    cases hloop : (uploadLoop uploadOk files 0 b []).2.2 with
    | true =>
        have hcreate : createOk = false := by
          rcases hfail with ⟨k, hk, hko⟩ | hc
          · exfalso
            have := (uploadLoop_success uploadOk files 0 b []).mp hloop k hk
            rw [Nat.zero_add] at this
            rw [this] at hko
            cases hko
          · exact hc
        rw [if_pos rfl, hcreate, if_neg (by simp)]
        exact ⟨rfl, rfl, rfl, rfl⟩
    | false =>
        rw [if_neg (by simp)]
        exact ⟨rfl, rfl, rfl, rfl⟩
  constructor
  · intro files uploadOk destroyOk createOk b hne hb hfail
    obtain ⟨h1, h2, h3, _⟩ := main files uploadOk destroyOk createOk b hne hb hfail
    exact ⟨h1, h2, h3⟩
  · intro files uploadOk destroyOk createOk b hne hb hfail hdok
    obtain ⟨_, _, _, h4⟩ := main files uploadOk destroyOk createOk b hne hb hfail
    rw [h4]
    obtain ⟨newIds, hids, hstored, hlow⟩ := uploadLoop_blob uploadOk files 0 b [] hb
    rw [cleanupBatch_all_ok destroyOk _ _ (fun p _ => hdok p)]
    rw [hstored, hids]
    simp only [List.reverse_nil, List.map_nil, List.nil_append]
    rw [List.filter_append]
    have hgone : List.filter (fun x => !(newIds.contains x)) newIds.reverse = [] := by
      rw [List.filter_eq_nil_iff]
      intro x hx
      have hxmem : x ∈ newIds := List.mem_reverse.mp hx
      simpa using hxmem
    have hkeep : List.filter (fun x => !(newIds.contains x)) b.stored = b.stored := by
      rw [List.filter_eq_self]
      intro x hx
      have hlt := hb x hx
      have hnotin : x ∉ newIds := by
        intro hmem
        have := hlow x hmem
        omega
      simp [hnotin]
    rw [hgone, hkeep, List.nil_append]

/-- Witness for C8: a two-file batch whose second upload fails aborts with
an error, creates nothing, issues a destroy for the one uploaded file, and
with all destroys succeeding the store ends empty as it began. -/
theorem claim8_upload_cleanup_witness :
    ((uploadFilesHandler [FileIn.mk "plan.png" "image/png" 10, FileIn.mk "site.pdf" "application/pdf" 20]
        (fun i => i == 0) (fun _ => true) true (Blob.mk [] 0)).resp.success = false ∧
     (uploadFilesHandler [FileIn.mk "plan.png" "image/png" 10, FileIn.mk "site.pdf" "application/pdf" 20]
        (fun i => i == 0) (fun _ => true) true (Blob.mk [] 0)).created = none ∧
     (uploadFilesHandler [FileIn.mk "plan.png" "image/png" 10, FileIn.mk "site.pdf" "application/pdf" 20]
        (fun i => i == 0) (fun _ => true) true (Blob.mk [] 0)).destroys =
       (uploadLoop (fun i => i == 0)
         [FileIn.mk "plan.png" "image/png" 10, FileIn.mk "site.pdf" "application/pdf" 20]
         0 (Blob.mk [] 0) []).1.map Prod.fst) ∧
    (uploadFilesHandler [FileIn.mk "plan.png" "image/png" 10, FileIn.mk "site.pdf" "application/pdf" 20]
       (fun i => i == 0) (fun _ => true) true (Blob.mk [] 0)).blob.stored = [] :=
  ⟨claim8_upload_cleanup.1
     [FileIn.mk "plan.png" "image/png" 10, FileIn.mk "site.pdf" "application/pdf" 20]
     (fun i => i == 0) (fun _ => true) true (Blob.mk [] 0)
     (by decide) (by intro x hx; cases hx) (Or.inl ⟨1, by decide, rfl⟩),
   claim8_upload_cleanup.2
     [FileIn.mk "plan.png" "image/png" 10, FileIn.mk "site.pdf" "application/pdf" 20]
     (fun i => i == 0) (fun _ => true) true (Blob.mk [] 0)
     (by decide) (by intro x hx; cases hx) (Or.inl ⟨1, by decide, rfl⟩) (fun _ => rfl)⟩

/-- C9: a registration request that passes every validator and collides with
no existing account succeeds with 201 and persists the user, whether or not
the verification-email send succeeds: the outcome is literally independent
of emailOk, because the catch branch of the send returns the same success
body (the failure is only logged). -/
theorem claim9_register_email :
    ∀ (users : List UserRec) (inp : RegInput) (emailOk : Bool),
      validateRegistration inp = true →
      (∀ u ∈ users, u.email ≠ inp.email ∧ u.phone ≠ inp.phone) →
      (registerRoute users inp emailOk).1.code = 201 ∧
      (registerRoute users inp emailOk).1.success = true ∧
      (registerRoute users inp emailOk).2 =
        { firstName := strTrim inp.firstName
          lastName := strTrim inp.lastName
          email := inp.email
          phone := inp.phone
          gender := inp.gender
          isEmailVerified := false
          hasVerificationToken := true } :: users ∧
      registerRoute users inp emailOk = registerRoute users inp true := by
  intro users inp emailOk hv hnd
  have hfind : users.find? (fun u => u.email == inp.email || u.phone == inp.phone) = none := by
    rw [List.find?_eq_none]
    intro u hu
    simp [(hnd u hu).1, (hnd u hu).2]
  unfold registerRoute
  simp only [hv, Bool.not_true, Bool.false_eq_true, if_false, hfind]
  cases emailOk <;> exact ⟨rfl, rfl, rfl, rfl⟩

/-- Witness for C9: registering regAsha against an empty user store with a
failing email send still returns 201 and stores the account, identically to
the successful-send run. -/
theorem claim9_register_email_witness :
    validateRegistration regAsha = true ∧
    ((registerRoute [] regAsha false).1.code = 201 ∧
     (registerRoute [] regAsha false).1.success = true ∧
     (registerRoute [] regAsha false).2 =
       { firstName := strTrim regAsha.firstName
         lastName := strTrim regAsha.lastName
         email := regAsha.email
         phone := regAsha.phone
         gender := regAsha.gender
         isEmailVerified := false
         hasVerificationToken := true } :: ([] : List UserRec) ∧
     registerRoute [] regAsha false = registerRoute [] regAsha true) :=
  ⟨by decide,
   claim9_register_email [] regAsha false (by decide)
     (fun u hu => absurd hu (List.not_mem_nil u))⟩

theorem mem_insertGE {x y : VastuRule} :
    ∀ {l : List VastuRule}, x ∈ insertGE y l → x = y ∨ x ∈ l := by
  intro l
  induction l with
  | nil =>
      intro h
      unfold insertGE at h
      rcases List.mem_cons.mp h with h | h
      · exact Or.inl h
      · cases h
  | cons z zs ih =>
      intro h
      unfold insertGE at h
      by_cases hc : ruleGE y z = true
      · rw [if_pos hc] at h
        rcases List.mem_cons.mp h with h | h
        · exact Or.inl h
        · exact Or.inr h
      · rw [if_neg hc] at h
        rcases List.mem_cons.mp h with h | h
        · exact Or.inr (by simp [h])
        · rcases ih h with h2 | h2
          · exact Or.inl h2
          · exact Or.inr (by simp [h2])

theorem mem_sortRules {r : VastuRule} :
    ∀ {l : List VastuRule}, r ∈ sortRules l → r ∈ l := by
  intro l
  induction l with
  | nil =>
      intro h
      cases h
  | cons y ys ih =>
      intro h
      unfold sortRules at h
      simp only [List.foldr_cons] at h
      rcases mem_insertGE h with h2 | h2
      · simp [h2]
      · exact List.mem_cons.mpr (Or.inr (ih h2))

/-- C10: deleting a VastuRule is a soft deactivation: the handler answers
200, the record stays in the store with isActive false (and the pre-save
version bump) and every other field intact, after which get-by-id reports
404; get-by-id and the remedies lookup answer 404 for any inactive rule;
and the list, search, category and critical queries only ever return rules
with isActive true. -/
theorem claim10_soft_delete :
    (∀ (db : RuleDB) (id : Nat) (r : VastuRule), ruleGet db id = some r →
        (deleteRule db id).1.code = 200 ∧ (deleteRule db id).1.success = true ∧
        ruleGet (deleteRule db id).2 id =
          some { r with isActive := false,
                        version := if r.isActive then r.version + 1 else r.version } ∧
        (getRuleById (deleteRule db id).2 id).code = 404) ∧
    (∀ (db : RuleDB) (id : Nat) (r : VastuRule) (budget difficulty : String),
        ruleGet db id = some r → r.isActive = false →
        (getRuleById db id).code = 404 ∧
        (getRuleRemedies db id budget difficulty).1.code = 404) ∧
    (∀ (db : RuleDB) (f : RuleFilters) (skip limit : Nat) (r : VastuRule),
        r ∈ listRules db f skip limit → r.isActive = true) ∧
    (∀ (db : RuleDB) (q : String) (f : RuleFilters) (r : VastuRule),
        r ∈ searchRules db q f → r.isActive = true) ∧
    (∀ (db : RuleDB) (cat : String) (f : RuleFilters) (r : VastuRule),
        r ∈ getByCategory db cat f → r.isActive = true) ∧
    (∀ (db : RuleDB) (r : VastuRule), r ∈ getCriticalRules db → r.isActive = true) := by
  refine ⟨?_, ?_, ?_, ?_, ?_, ?_⟩
  · intro db id r ha
    have hset : ruleGet (ruleSet db id
        { r with isActive := false,
                 version := if r.isActive then r.version + 1 else r.version }) id =
        some { r with isActive := false,
                      version := if r.isActive then r.version + 1 else r.version } :=
      lookup_upd_self _ ha
    unfold deleteRule
    simp only [ha]
    refine ⟨by trivial, by trivial, hset, ?_⟩
    unfold getRuleById
    simp only [hset]
    rfl
  · intro db id r budget difficulty ha hact
    unfold getRuleById getRuleRemedies
    simp only [ha, hact]
    exact ⟨rfl, rfl⟩
  · intro db f skip limit r hr
    unfold listRules at hr
    have h1 := mem_sortRules (List.mem_of_mem_drop (List.mem_of_mem_take hr))
    have h2 := (List.mem_filter.mp h1).2
    unfold ruleMatches at h2
    simp only [Bool.and_eq_true] at h2
    exact h2.1.1.1.1.1.1
  · intro db q f r hr
    unfold searchRules at hr
    have h1 := mem_sortRules hr
    have h2 := (List.mem_filter.mp h1).2
    simp only [Bool.and_eq_true] at h2
    exact h2.1.1.1.1.1.1
  · intro db cat f r hr
    unfold getByCategory at hr
    have h1 := mem_sortRules hr
    have h2 := (List.mem_filter.mp h1).2
    simp only [Bool.and_eq_true] at h2
    exact h2.1.1.1.1.2
  · intro db r hr
    unfold getCriticalRules at hr
    have h1 := mem_sortRules hr
    have h2 := (List.mem_filter.mp h1).2
    simp only [Bool.and_eq_true] at h2
    exact h2.1

/-- Witness for C10 at concrete stores: deleting the active rule keeps the
record with isActive false and bumps version, the deactivated rule answers
404 on both reads, and the four queries on mixed stores only return the
active rule. -/
theorem claim10_soft_delete_witness :
    (ruleGet [(0, ruleNE)] 0 = some ruleNE ∧
     ((deleteRule [(0, ruleNE)] 0).1.code = 200 ∧
      (deleteRule [(0, ruleNE)] 0).1.success = true ∧
      ruleGet (deleteRule [(0, ruleNE)] 0).2 0 =
        some { ruleNE with isActive := false,
                           version := if ruleNE.isActive then ruleNE.version + 1
                                      else ruleNE.version } ∧
      (getRuleById (deleteRule [(0, ruleNE)] 0).2 0).code = 404)) ∧
    ((getRuleById [(0, ruleOff)] 0).code = 404 ∧
     (getRuleRemedies [(0, ruleOff)] 0 "medium" "medium").1.code = 404) ∧
    (ruleNE ∈ listRules [(0, ruleNE), (1, ruleOff)] {} 0 20 ∧ ruleNE.isActive = true) ∧
    (ruleNE ∈ searchRules [(0, ruleNE), (1, ruleOff)] "puja" {} ∧ ruleNE.isActive = true) ∧
    (ruleNE ∈ getByCategory [(0, ruleNE), (1, ruleOff)] "puja-room" {} ∧
     ruleNE.isActive = true) ∧
    (ruleNE ∈ getCriticalRules [(0, ruleNE), (1, ruleOff)] ∧ ruleNE.isActive = true) :=
  ⟨⟨by decide, claim10_soft_delete.1 [(0, ruleNE)] 0 ruleNE (by decide)⟩,
   claim10_soft_delete.2.1 [(0, ruleOff)] 0 ruleOff "medium" "medium" (by decide) (by decide),
   ⟨by decide, claim10_soft_delete.2.2.1 [(0, ruleNE), (1, ruleOff)] {} 0 20 ruleNE (by decide)⟩,
   ⟨by decide, claim10_soft_delete.2.2.2.1 [(0, ruleNE), (1, ruleOff)] "puja" {} ruleNE (by decide)⟩,
   ⟨by decide, claim10_soft_delete.2.2.2.2.1 [(0, ruleNE), (1, ruleOff)] "puja-room" {} ruleNE (by decide)⟩,
   ⟨by decide, claim10_soft_delete.2.2.2.2.2 [(0, ruleNE), (1, ruleOff)] ruleNE (by decide)⟩⟩

end Vastology
